import Mathlib

/-!
Verification development for the GuardianBridge proxy (dialect bridge,
moderation decision engine, sample store).  The Python sources under
`ai_proxy/` are shallowly embedded: pure functions become Lean functions,
stateful code threads explicit state records, machine-level effects
(RNG, file mtimes, the remote AI call, the upstream HTTP client) become
explicit parameters, and fallible code returns `Option`/`Except`.
-/

set_option maxRecDepth 4000

/- ------------------------------------------------------------------
   JSON values.

   Python dicts preserve insertion order, so objects are association
   lists.  Numbers are restricted to integers (the bodies handled by the
   claims contain no floats). -/

/-- JSON value: the shallow embedding of Python dict/list/str/int/bool/None
trees as handled by `json` / `orjson`. -/
inductive Json where
  | null
  | bool (b : Bool)
  | num (n : Int)
  | str (s : String)
  | arr (items : List Json)
  | obj (fields : List (String × Json))
deriving Repr, Inhabited

/-- Python dict assignment `d[k] = v` on an association list: replace in
place if the key exists (keeping its position), else append. -/
def assoc_set {κ α : Type} [DecidableEq κ] (l : List (κ × α)) (k : κ) (v : α) :
    List (κ × α) :=
  match l with
  | [] => [(k, v)]
  | (k1, v1) :: rest => if k1 = k then (k, v) :: rest else (k1, v1) :: assoc_set rest k v

/-- Python dict lookup `d.get(k)`: `none` when the key is absent. -/
def assoc_get {κ α : Type} [DecidableEq κ] (l : List (κ × α)) (k : κ) : Option α :=
  (l.find? (fun p => p.1 = k)).map (·.2)

/-- Python dict deletion `del d[k]`. -/
def assoc_del {κ α : Type} [DecidableEq κ] (l : List (κ × α)) (k : κ) : List (κ × α) :=
  match l with
  | [] => []
  | (k1, v1) :: rest => if k1 = k then rest else (k1, v1) :: assoc_del rest k

/-- Dict assignment for JSON object fields. -/
def al_set (l : List (String × Json)) (k : String) (v : Json) : List (String × Json) :=
  assoc_set l k v

/-- Dict lookup for JSON object fields. -/
def al_get (l : List (String × Json)) (k : String) : Option Json :=
  assoc_get l k

/-- Python `k in d`. -/
def al_has (l : List (String × Json)) (k : String) : Bool :=
  (al_get l k).isSome

/-- Dict deletion for JSON object fields. -/
def al_del (l : List (String × Json)) (k : String) : List (String × Json) :=
  assoc_del l k

/-- Object member access `body.get(k)` on a JSON value, `none` if absent
or if the value is not an object. -/
def Json.get? : Json → String → Option Json
  | .obj fields, k => al_get fields k
  | _, _ => none

/-- Python `body.get(k, default)`. -/
def Json.getD (j : Json) (k : String) (d : Json) : Json :=
  (j.get? k).getD d

/-- Python `k in body` for an object. -/
def Json.hasKey (j : Json) (k : String) : Bool :=
  (j.get? k).isSome

/-- Python truthiness of a JSON value (`if x:`). -/
def Json.truthy : Json → Bool
  | .null => false
  | .bool b => b
  | .num n => n ≠ 0
  | .str s => s ≠ ""
  | .arr items => ¬ items.isEmpty
  | .obj fields => ¬ fields.isEmpty

/-- Python `x.get(k) or d` for string-valued fields. -/
def Json.strOrD (j : Json) (k : String) (d : String) : String :=
  match j.get? k with
  | some (.str s) => if s = "" then d else s
  | _ => d

/- ------------------------------------------------------------------
   String helpers modelling the Python `str` operations used by the
   sources (ASCII case folding suffices for the moderation texts the
   claims exercise). -/

/-- ASCII lower-casing of one character. -/
def ascii_lower_char (c : Char) : Char :=
  if 'A' ≤ c ∧ c ≤ 'Z' then Char.ofNat (c.toNat + 32) else c

/-- Python `s.lower()` (ASCII fragment). -/
def str_lower (s : String) : String :=
  String.mk (s.data.map ascii_lower_char)

/-- Substring search on character lists (`needle in hay`). -/
def contains_sub (hay needle : List Char) : Bool :=
  match hay with
  | [] => needle.isEmpty
  | c :: t => needle.isPrefixOf (c :: t) || contains_sub t needle

/-- Python `needle in hay` for strings. -/
def str_contains (hay needle : String) : Bool :=
  contains_sub hay.data needle.data

/-- Whitespace characters removed by Python `str.strip()`. -/
def is_py_space (c : Char) : Bool :=
  c = ' ' || c = '\t' || c = '\n' || c = '\r' || c = Char.ofNat 11 || c = Char.ofNat 12

/-- Python `s.strip()`. -/
def strip_str (s : String) : String :=
  String.mk (((s.data.dropWhile is_py_space).reverse.dropWhile is_py_space).reverse)

/- ------------------------------------------------------------------
   `ai_proxy/moderation/basic.py`: keyword filter. -/

/-- Characters escaped by Python 3.7+ `re.escape`. -/
def re_special_chars : List Char :=
  ['(', ')', '[', ']', Char.ofNat 123, Char.ofNat 125, '?', '*', '+', '-', '|',
   '^', '$', '\\', '.', '&', '~', '#', ' ', '\t', '\n', '\r',
   Char.ofNat 11, Char.ofNat 12]

/-- Python `re.escape`: backslash-escape each regex metacharacter. -/
def re_escape (s : String) : String :=
  String.mk (s.data.foldr
    (fun c acc => if re_special_chars.contains c then '\\' :: c :: acc else c :: acc) [])

/-- Model of `re.compile(re.escape(kw), re.IGNORECASE)`: the compiled object
keeps both the literal keyword it matches (`source`, case-insensitively) and
the regex text reported by `.pattern` (the escaped keyword). -/
structure CompiledKeywordPattern where
  source : String
  pattern : String
deriving Repr, DecidableEq

/-- Python `s.startswith("#")`: the first character is a hash. -/
def starts_with_hash (s : String) : Bool :=
  match s.data with
  | c :: _ => c = '#'
  | [] => false

/-- Non-empty, non-comment stripped lines of the keywords file. -/
def keyword_lines (lines : List String) : List String :=
  lines.filterMap (fun line =>
    let kw := strip_str line
    if kw = "" || starts_with_hash kw then none else some kw)

/-- `KeywordFilter._load_patterns`: one case-insensitive literal pattern per
non-empty, non-comment line. -/
def load_patterns (lines : List String) : List CompiledKeywordPattern :=
  (keyword_lines lines).map (fun kw => ⟨kw, re_escape kw⟩)

/-- In-memory state of a `KeywordFilter` (path is fixed per filter). -/
structure KeywordFilterSt where
  mtime : Int
  patterns : List CompiledKeywordPattern
deriving Repr, DecidableEq

/-- `KeywordFilter.reload_if_needed`: the file system is passed explicitly
(existence, current mtime, current lines). -/
def reload_if_needed (st : KeywordFilterSt) (file_exists : Bool) (file_mtime : Int)
    (lines : List String) : KeywordFilterSt :=
  if ¬ file_exists then ⟨st.mtime, []⟩
  else if file_mtime ≠ st.mtime then ⟨file_mtime, load_patterns lines⟩
  else st

/-- `KeywordFilter.match`: reload if needed, then return the `.pattern` text
of the first compiled pattern whose keyword occurs case-insensitively in the
text. -/
def kw_filter_match (st : KeywordFilterSt) (file_exists : Bool) (file_mtime : Int)
    (lines : List String) (text : String) : KeywordFilterSt × Option String :=
  let st1 := reload_if_needed st file_exists file_mtime lines
  (st1,
   (st1.patterns.find? (fun p => str_contains (str_lower text) (str_lower p.source))).map
     (·.pattern))

/-- Recognized keys of the `basic_moderation` config dict. -/
structure BasicModerationCfg where
  enabled : Bool
  error_code : Option String
deriving Repr, DecidableEq

/-- `basic_moderation(text, cfg)`; the filter state and the keywords file
content are threaded explicitly (the global `_filters` registry keeps one
state per path). -/
def basic_moderation (text : String) (cfg : BasicModerationCfg) (st : KeywordFilterSt)
    (file_exists : Bool) (file_mtime : Int) (lines : List String) :
    KeywordFilterSt × (Bool × Option String) :=
  if ¬ cfg.enabled then (st, (true, none))
  else
    let r := kw_filter_match st file_exists file_mtime lines text
    match r.2 with
    | some matched_kw =>
        (r.1, (false,
          some ("[" ++ cfg.error_code.getD "BASIC_MODERATION_BLOCKED" ++
                "] Matched keyword: " ++ matched_kw)))
    | none => (r.1, (true, none))

/-- First keyword of the file matching the text (case-insensitive substring). -/
def first_matching_keyword (lines : List String) (text : String) : Option String :=
  (keyword_lines lines).find? (fun kw => str_contains (str_lower text) (str_lower kw))

/- ------------------------------------------------------------------
   `ai_proxy/moderation/smart/storage.py`: the per-profile sample store.
   The RocksDB handle is modelled as an explicit record of its keys:
   `sample:<id>` entries, `text_latest:<hash>` entries, and the four
   `meta:` counters.  `datetime.now()` is passed explicitly. -/

/-- Model of `_hash_text` (`hashlib.md5(text).hexdigest()`, an external
library).  Its only role in the claims is as the secondary-index key, so the
digest is modelled as the text itself. -/
def hash_text (text : String) : String :=
  text

/-- Decoded content of one `sample:<id>` value (`_sample_to_json` payload). -/
structure StoredSample where
  id : Nat
  text : String
  label : Nat
  category : Option String
  created_at : String
  text_hash : String
deriving Repr, DecidableEq

/-- State of one profile's store: the `sample:`, `text_latest:` and `meta:`
keys of the RocksDB handle. -/
structure SampleStore where
  samples : List (Nat × StoredSample)
  text_latest : List (String × Nat)
  meta_next_id : Nat
  meta_count : Nat
  meta_count0 : Nat
  meta_count1 : Nat
deriving Repr, DecidableEq

/-- Store contents after `_init_meta` ran on a freshly created database. -/
def empty_sample_store : SampleStore :=
  { samples := [], text_latest := [], meta_next_id := 1,
    meta_count := 0, meta_count0 := 0, meta_count1 := 0 }

/-- `SampleStorage.save_sample`. -/
def save_sample (st : SampleStore) (text : String) (label : Nat)
    (category : Option String) (now : String) : SampleStore :=
  let sid := st.meta_next_id
  let h := hash_text text
  let sample : StoredSample :=
    { id := sid, text := text, label := label, category := category,
      created_at := now, text_hash := h }
  let c0 := st.meta_count0
  let c1 := st.meta_count1
  let c0 := if label = 0 then c0 + 1 else c0
  let c1 := if label = 0 then c1 else c1 + 1
  { samples := assoc_set st.samples sid sample,
    text_latest := assoc_set st.text_latest h sid,
    meta_next_id := sid + 1,
    meta_count := c0 + c1, meta_count0 := c0, meta_count1 := c1 }

/-- Ids scanned by the `sid = next_id - 1; while sid > 0: ...; sid -= 1`
loops: `next_id - 1` down to `1`. -/
def desc_ids (next_id : Nat) : List Nat :=
  (List.range next_id).reverse.filter (fun sid => sid ≠ 0)

/-- `SampleStorage._refresh_text_latest_after_delete`, acting on the already
updated `samples` and the current `text_latest` index. -/
def refresh_text_latest_after_delete (samples : List (Nat × StoredSample))
    (tl : List (String × Nat)) (next_id : Nat) (h : String) (deleted_id : Nat) :
    List (String × Nat) :=
  match assoc_get tl h with
  | none => tl
  | some latest =>
    if latest ≠ deleted_id then tl
    else
      match (desc_ids next_id).find? (fun sid =>
          match assoc_get samples sid with
          | some s => s.text_hash = h
          | none => false) with
      | some sid => assoc_set tl h sid
      | none => assoc_del tl h

/-- Local state of the deletion loop in `_delete_random_samples`: the data
keys plus the counters read once before the loop (`_set_counts` publishes
them after the loop; nothing reads `meta:` in between). -/
structure DeleteAcc where
  samples : List (Nat × StoredSample)
  text_latest : List (String × Nat)
  c0 : Nat
  c1 : Nat
  total : Nat
deriving Repr

/-- One iteration of the `for sid in to_delete` loop of
`_delete_random_samples` (`max(0, n - 1)` is Nat subtraction). -/
def delete_step (next_id : Nat) (acc : DeleteAcc) (sid : Nat) : DeleteAcc :=
  match assoc_get acc.samples sid with
  | none => acc
  | some data =>
    let samples1 := assoc_del acc.samples sid
    let c0 := if data.label = 0 then acc.c0 - 1 else acc.c0
    let c1 := if data.label = 0 then acc.c1 else acc.c1 - 1
    let total := acc.total - 1
    let tl1 :=
      if data.text_hash ≠ "" then
        refresh_text_latest_after_delete samples1 acc.text_latest next_id data.text_hash sid
      else acc.text_latest
    { samples := samples1, text_latest := tl1, c0 := c0, c1 := c1, total := total }

/-- Candidate ids collected by `_delete_random_samples` before choosing what
to delete: every live sample with the requested label, newest first. -/
def delete_candidates (st : SampleStore) (label : Nat) : List Nat :=
  (desc_ids st.meta_next_id).filter (fun sid =>
    match assoc_get st.samples sid with
    | some s => s.label = label
    | none => false)

/-- Deletion loop of `_delete_random_samples` applied to a chosen id list,
followed by `_set_counts`. -/
def delete_samples_list (st : SampleStore) (to_delete : List Nat) : SampleStore :=
  let acc := to_delete.foldl (delete_step st.meta_next_id)
    { samples := st.samples, text_latest := st.text_latest,
      c0 := st.meta_count0, c1 := st.meta_count1, total := st.meta_count }
  { samples := acc.samples, text_latest := acc.text_latest,
    meta_next_id := st.meta_next_id,
    meta_count := acc.total, meta_count0 := acc.c0, meta_count1 := acc.c1 }

/-- `SampleStorage._delete_random_samples`; `pick` models `random.sample`
(the selection of `count` ids out of the candidate list). -/
def delete_random_samples (st : SampleStore) (label : Nat) (count : Nat)
    (pick : List Nat → Nat → List Nat) : SampleStore × Nat :=
  if count = 0 then (st, 0)
  else
    let candidates := delete_candidates st label
    if candidates.isEmpty then (st, 0)
    else
      let to_delete := if candidates.length ≤ count then candidates else pick candidates count
      (delete_samples_list st to_delete, to_delete.length)

/-- `SampleStorage.cleanup_excess_samples`; `pick0`/`pick1` model the two
`random.sample` draws. -/
def cleanup_excess_samples (st : SampleStore) (max_items : Nat)
    (pick0 pick1 : List Nat → Nat → List Nat) : SampleStore :=
  let total := st.meta_count
  if total ≤ max_items then st
  else
    let pass_count := st.meta_count0
    let violation_count := st.meta_count1
    let target := max_items / 2
    let st1 :=
      if target < pass_count then (delete_random_samples st 0 (pass_count - target) pick0).1
      else st
    if target < violation_count then
      (delete_random_samples st1 1 (violation_count - target) pick1).1
    else st1

/-- One row of the legacy SQLite `samples` table (`id` is the integer
primary key; the other columns are nullable). -/
structure LegacyRow where
  rid : Nat
  text : Option String
  label : Option Nat
  category : Option String
  created_at : Option String
deriving Repr

/-- Accumulator of the migration loop in `_migrate_sqlite_if_needed`. -/
structure MigrateAcc where
  samples : List (Nat × StoredSample)
  text_latest : List (String × Nat)
  c0 : Nat
  c1 : Nat
  next_id : Nat
deriving Repr

/-- One iteration of the `for rid, text, label, category, created_at in
rows` migration loop. -/
def migrate_step (now : String) (acc : MigrateAcc) (row : LegacyRow) : MigrateAcc :=
  let text := row.text.getD ""
  let label := row.label.getD 0
  let h := hash_text text
  let sample : StoredSample :=
    { id := row.rid, text := text, label := label, category := row.category,
      created_at := row.created_at.getD now, text_hash := h }
  { samples := assoc_set acc.samples row.rid sample,
    text_latest := assoc_set acc.text_latest h row.rid,
    c0 := if label = 0 then acc.c0 + 1 else acc.c0,
    c1 := if label = 0 then acc.c1 else acc.c1 + 1,
    next_id := max acc.next_id (row.rid + 1) }

/-- `SampleStorage._migrate_sqlite_if_needed`, migration branch: build the
fresh store from the legacy rows (read in ascending id order) and publish
the counters.  `_init_meta` afterwards finds every key present and changes
nothing. -/
def migrate_sqlite (rows : List LegacyRow) (now : String) : SampleStore :=
  let acc := rows.foldl (migrate_step now)
    { samples := [], text_latest := [], c0 := 0, c1 := 0, next_id := 1 }
  { samples := acc.samples, text_latest := acc.text_latest,
    meta_next_id := acc.next_id,
    meta_count := acc.c0 + acc.c1, meta_count0 := acc.c0, meta_count1 := acc.c1 }

/-- Store states produced by this module: fresh construction, construction
with SQLite migration, and the two mutating operations (with arbitrary
outcomes of the `random.sample` draws). -/
inductive ReachableStore : SampleStore → Prop where
  | fresh : ReachableStore empty_sample_store
  | migrated (rows : List LegacyRow) (now : String) :
      ReachableStore (migrate_sqlite rows now)
  | saved {st : SampleStore} (text : String) (label : Nat)
      (category : Option String) (now : String) :
      ReachableStore st → ReachableStore (save_sample st text label category now)
  | deleted {st : SampleStore} (label : Nat) (count : Nat)
      (pick : List Nat → Nat → List Nat) :
      ReachableStore st → ReachableStore (delete_random_samples st label count pick).1
  | cleaned {st : SampleStore} (max_items : Nat)
      (pick0 pick1 : List Nat → Nat → List Nat) :
      ReachableStore st → ReachableStore (cleanup_excess_samples st max_items pick0 pick1)

/-- Number of live samples with label 0. -/
def live_count0 (samples : List (Nat × StoredSample)) : Nat :=
  samples.countP (fun p => p.2.label = 0)

/-- Number of live samples with a nonzero label. -/
def live_count1 (samples : List (Nat × StoredSample)) : Nat :=
  samples.countP (fun p => !decide (p.2.label = 0))

/-- Inductive invariant of the store: the total counter is the sum of the
per-label counters, the per-label counters dominate the live per-label
populations, and every live id is below `meta:next_id`. -/
def StoreInv (st : SampleStore) : Prop :=
  st.meta_count = st.meta_count0 + st.meta_count1 ∧
  live_count0 st.samples ≤ st.meta_count0 ∧
  live_count1 st.samples ≤ st.meta_count1 ∧
  ∀ p ∈ st.samples, p.1 < st.meta_next_id

/- ------------------------------------------------------------------
   Association-list lemmas used by the store invariant. -/

theorem assoc_get_cons {κ α : Type} [DecidableEq κ] (k1 : κ) (v1 : α)
    (t : List (κ × α)) (k : κ) :
    assoc_get ((k1, v1) :: t) k = if k1 = k then some v1 else assoc_get t k := by
  by_cases h : k1 = k <;> simp [assoc_get, List.find?_cons, h]

theorem mem_assoc_set {κ α : Type} [DecidableEq κ] {l : List (κ × α)} {k : κ} {v : α}
    {p : κ × α} (hp : p ∈ assoc_set l k v) : p = (k, v) ∨ p ∈ l := by
  induction l with
  | nil => simpa [assoc_set] using hp
  | cons hd t ih =>
    obtain ⟨k1, v1⟩ := hd
    by_cases h : k1 = k
    · simp only [assoc_set, if_pos h, List.mem_cons] at hp
      rcases hp with h1 | h1
      · exact Or.inl h1
      · exact Or.inr (List.mem_cons_of_mem _ h1)
    · simp only [assoc_set, if_neg h, List.mem_cons] at hp
      rcases hp with h1 | h1
      · exact Or.inr (by simp [h1])
      · rcases ih h1 with h2 | h2
        · exact Or.inl h2
        · exact Or.inr (List.mem_cons_of_mem _ h2)

theorem countP_assoc_set_le {κ α : Type} [DecidableEq κ] (l : List (κ × α)) (k : κ)
    (v : α) (q : κ × α → Bool) :
    (assoc_set l k v).countP q ≤ l.countP q + (if q (k, v) then 1 else 0) := by
  induction l with
  | nil => simp [assoc_set, List.countP_cons]
  | cons hd t ih =>
    obtain ⟨k1, v1⟩ := hd
    by_cases h : k1 = k
    · simp only [assoc_set, if_pos h, List.countP_cons]
      omega
    · simp only [assoc_set, if_neg h, List.countP_cons]
      omega

theorem assoc_get_mem {κ α : Type} [DecidableEq κ] {l : List (κ × α)} {k : κ} {v : α}
    (h : assoc_get l k = some v) : (k, v) ∈ l := by
  induction l with
  | nil => simp [assoc_get] at h
  | cons hd t ih =>
    obtain ⟨k1, v1⟩ := hd
    rw [assoc_get_cons] at h
    by_cases hk : k1 = k
    · rw [if_pos hk] at h
      cases h
      subst hk
      exact List.mem_cons_self _ _
    · rw [if_neg hk] at h
      exact List.mem_cons_of_mem _ (ih h)

theorem mem_assoc_del {κ α : Type} [DecidableEq κ] {l : List (κ × α)} {k : κ}
    {p : κ × α} (hp : p ∈ assoc_del l k) : p ∈ l := by
  induction l with
  | nil => simpa [assoc_del] using hp
  | cons hd t ih =>
    obtain ⟨k1, v1⟩ := hd
    by_cases h : k1 = k
    · simp only [assoc_del, if_pos h] at hp
      exact List.mem_cons_of_mem _ hp
    · simp only [assoc_del, if_neg h, List.mem_cons] at hp
      rcases hp with h1 | h1
      · simp [h1]
      · exact List.mem_cons_of_mem _ (ih h1)

theorem countP_assoc_del_of_get {κ α : Type} [DecidableEq κ] {l : List (κ × α)}
    {k : κ} {v : α} (h : assoc_get l k = some v) (q : κ × α → Bool) :
    l.countP q = (assoc_del l k).countP q + (if q (k, v) then 1 else 0) := by
  induction l with
  | nil => simp [assoc_get] at h
  | cons hd t ih =>
    obtain ⟨k1, v1⟩ := hd
    rw [assoc_get_cons] at h
    by_cases hk : k1 = k
    · rw [if_pos hk] at h
      cases h
      subst hk
      simp [assoc_del, List.countP_cons]
    · rw [if_neg hk] at h
      simp only [assoc_del, if_neg hk, List.countP_cons]
      rw [ih h]
      omega

/- ------------------------------------------------------------------
   Specialized counting lemmas for the live-sample populations. -/

theorem live0_set_le (l : List (Nat × StoredSample)) (k : Nat) (v : StoredSample) :
    live_count0 (assoc_set l k v) ≤ live_count0 l + (if v.label = 0 then 1 else 0) := by
  have h := countP_assoc_set_le l k v (fun p => decide (p.2.label = 0))
  by_cases hl : v.label = 0 <;> simpa [live_count0, hl] using h

theorem live1_set_le (l : List (Nat × StoredSample)) (k : Nat) (v : StoredSample) :
    live_count1 (assoc_set l k v) ≤ live_count1 l + (if v.label = 0 then 0 else 1) := by
  have h := countP_assoc_set_le l k v (fun p => !decide (p.2.label = 0))
  by_cases hl : v.label = 0 <;> simpa [live_count1, hl] using h

theorem live0_del_eq {l : List (Nat × StoredSample)} {k : Nat} {v : StoredSample}
    (hget : assoc_get l k = some v) :
    live_count0 l = live_count0 (assoc_del l k) + (if v.label = 0 then 1 else 0) := by
  have h := countP_assoc_del_of_get hget (fun p => decide (p.2.label = 0))
  by_cases hl : v.label = 0 <;> simpa [live_count0, hl] using h

theorem live1_del_eq {l : List (Nat × StoredSample)} {k : Nat} {v : StoredSample}
    (hget : assoc_get l k = some v) :
    live_count1 l = live_count1 (assoc_del l k) + (if v.label = 0 then 0 else 1) := by
  have h := countP_assoc_del_of_get hget (fun p => !decide (p.2.label = 0))
  by_cases hl : v.label = 0 <;> simpa [live_count1, hl] using h

theorem live0_pos {l : List (Nat × StoredSample)} {k : Nat} {v : StoredSample}
    (hmem : (k, v) ∈ l) (hl : v.label = 0) : 1 ≤ live_count0 l := by
  have : 0 < l.countP (fun p => decide (p.2.label = 0)) :=
    List.countP_pos_iff.mpr ⟨(k, v), hmem, by simp [hl]⟩
  simpa [live_count0] using this

theorem live1_pos {l : List (Nat × StoredSample)} {k : Nat} {v : StoredSample}
    (hmem : (k, v) ∈ l) (hl : ¬ v.label = 0) : 1 ≤ live_count1 l := by
  have : 0 < l.countP (fun p => !decide (p.2.label = 0)) :=
    List.countP_pos_iff.mpr ⟨(k, v), hmem, by simp [hl]⟩
  simpa [live_count1] using this

/- ------------------------------------------------------------------
   Preservation of the store invariant. -/

theorem store_inv_empty : StoreInv empty_sample_store := by
  refine ⟨rfl, ?_, ?_, ?_⟩ <;> simp [empty_sample_store, live_count0, live_count1]

theorem store_inv_save (st : SampleStore) (text : String) (label : Nat)
    (category : Option String) (now : String) (h : StoreInv st) :
    StoreInv (save_sample st text label category now) := by
  obtain ⟨hsum, h0, h1, hb⟩ := h
  refine ⟨rfl, ?_, ?_, ?_⟩
  · have hle : live_count0 (assoc_set st.samples st.meta_next_id
        ⟨st.meta_next_id, text, label, category, now, hash_text text⟩) ≤
        live_count0 st.samples + (if label = 0 then 1 else 0) :=
      live0_set_le _ _ _
    simp only [save_sample]
    by_cases hl : label = 0
    · rw [if_pos hl] at hle ⊢
      omega
    · rw [if_neg hl] at hle ⊢
      omega
  · have hle : live_count1 (assoc_set st.samples st.meta_next_id
        ⟨st.meta_next_id, text, label, category, now, hash_text text⟩) ≤
        live_count1 st.samples + (if label = 0 then 0 else 1) :=
      live1_set_le _ _ _
    simp only [save_sample]
    by_cases hl : label = 0
    · rw [if_pos hl] at hle ⊢
      omega
    · rw [if_neg hl] at hle ⊢
      omega
  · intro p hp
    show p.1 < st.meta_next_id + 1
    rcases mem_assoc_set hp with h1 | h1
    · simp [h1]
    · exact Nat.lt_succ_of_lt (hb p h1)

/-- Invariant carried by the deletion loop. -/
def DeleteAccInv (next_id : Nat) (acc : DeleteAcc) : Prop :=
  acc.total = acc.c0 + acc.c1 ∧
  live_count0 acc.samples ≤ acc.c0 ∧
  live_count1 acc.samples ≤ acc.c1 ∧
  ∀ p ∈ acc.samples, p.1 < next_id

theorem delete_step_inv (next_id : Nat) (acc : DeleteAcc) (sid : Nat)
    (h : DeleteAccInv next_id acc) : DeleteAccInv next_id (delete_step next_id acc sid) := by
  obtain ⟨hsum, h0, h1, hb⟩ := h
  unfold delete_step
  cases hget : assoc_get acc.samples sid with
  | none => exact ⟨hsum, h0, h1, hb⟩
  | some data =>
    have hc0 := live0_del_eq hget
    have hc1 := live1_del_eq hget
    have hmem := assoc_get_mem hget
    refine ⟨?_, ?_, ?_, ?_⟩
    · show acc.total - 1 = _ + _
      by_cases hl : data.label = 0
      · have := live0_pos hmem hl
        simp only [hl, if_true, if_pos] at *
        omega
      · have := live1_pos hmem hl
        simp only [hl, if_false, if_neg, not_false_iff] at *
        omega
    · show live_count0 (assoc_del acc.samples sid) ≤ _
      by_cases hl : data.label = 0 <;>
        simp only [hl, if_true, if_false, if_pos, if_neg, not_false_iff] at hc0 ⊢ <;>
          omega
    · show live_count1 (assoc_del acc.samples sid) ≤ _
      by_cases hl : data.label = 0
      · simp only [hl, if_true, if_pos] at hc1 ⊢
        omega
      · have := live1_pos hmem hl
        simp only [hl, if_false, if_neg, not_false_iff] at hc1 ⊢
        omega
    · intro p hp
      exact hb p (mem_assoc_del hp)

theorem delete_fold_inv (next_id : Nat) (ids : List Nat) (acc : DeleteAcc)
    (h : DeleteAccInv next_id acc) :
    DeleteAccInv next_id (ids.foldl (delete_step next_id) acc) := by
  induction ids generalizing acc with
  | nil => exact h
  | cons hd t ih => exact ih _ (delete_step_inv next_id acc hd h)

theorem store_inv_delete_list (st : SampleStore) (ids : List Nat) (h : StoreInv st) :
    StoreInv (delete_samples_list st ids) := by
  obtain ⟨hsum, h0, h1, hb⟩ := h
  have hacc : DeleteAccInv st.meta_next_id
      { samples := st.samples, text_latest := st.text_latest,
        c0 := st.meta_count0, c1 := st.meta_count1, total := st.meta_count } :=
    ⟨hsum, h0, h1, hb⟩
  obtain ⟨a, b, c, d⟩ := delete_fold_inv st.meta_next_id ids _ hacc
  exact ⟨a, b, c, d⟩

theorem store_inv_delete (st : SampleStore) (label : Nat) (count : Nat)
    (pick : List Nat → Nat → List Nat) (h : StoreInv st) :
    StoreInv (delete_random_samples st label count pick).1 := by
  unfold delete_random_samples
  by_cases hc : count = 0
  · simpa [hc] using h
  · simp only [if_neg hc]
    by_cases he : (delete_candidates st label).isEmpty
    · simpa [he] using h
    · simp only [he, Bool.false_eq_true, if_false]
      exact store_inv_delete_list st _ h

theorem store_inv_cleanup (st : SampleStore) (max_items : Nat)
    (pick0 pick1 : List Nat → Nat → List Nat) (h : StoreInv st) :
    StoreInv (cleanup_excess_samples st max_items pick0 pick1) := by
  unfold cleanup_excess_samples
  by_cases ht : st.meta_count ≤ max_items
  · simpa [ht] using h
  · simp only [if_neg ht]
    by_cases hp : max_items / 2 < st.meta_count0 <;>
      by_cases hv : max_items / 2 < st.meta_count1 <;>
        simp only [hp, hv, if_true, if_false] <;>
          first
          | exact store_inv_delete _ _ _ _ (store_inv_delete _ _ _ _ h)
          | exact store_inv_delete _ _ _ _ h
          | exact h

/-- Invariant carried by the migration loop. -/
def MigrateAccInv (acc : MigrateAcc) : Prop :=
  live_count0 acc.samples ≤ acc.c0 ∧
  live_count1 acc.samples ≤ acc.c1 ∧
  ∀ p ∈ acc.samples, p.1 < acc.next_id

theorem migrate_step_inv (now : String) (acc : MigrateAcc) (row : LegacyRow)
    (h : MigrateAccInv acc) : MigrateAccInv (migrate_step now acc row) := by
  obtain ⟨h0, h1, hb⟩ := h
  refine ⟨?_, ?_, ?_⟩
  · have hle : live_count0 (assoc_set acc.samples row.rid
        ⟨row.rid, row.text.getD "", row.label.getD 0, row.category,
         row.created_at.getD now, hash_text (row.text.getD "")⟩) ≤
        live_count0 acc.samples + (if row.label.getD 0 = 0 then 1 else 0) :=
      live0_set_le _ _ _
    simp only [migrate_step]
    by_cases hl : row.label.getD 0 = 0
    · rw [if_pos hl] at hle ⊢
      omega
    · rw [if_neg hl] at hle ⊢
      omega
  · have hle : live_count1 (assoc_set acc.samples row.rid
        ⟨row.rid, row.text.getD "", row.label.getD 0, row.category,
         row.created_at.getD now, hash_text (row.text.getD "")⟩) ≤
        live_count1 acc.samples + (if row.label.getD 0 = 0 then 0 else 1) :=
      live1_set_le _ _ _
    simp only [migrate_step]
    by_cases hl : row.label.getD 0 = 0
    · rw [if_pos hl] at hle ⊢
      omega
    · rw [if_neg hl] at hle ⊢
      omega
  · intro p hp
    show p.1 < max acc.next_id (row.rid + 1)
    rcases mem_assoc_set hp with h2 | h2
    · have : p.1 = row.rid := by simp [h2]
      omega
    · exact lt_of_lt_of_le (hb p h2) (Nat.le_max_left _ _)

theorem store_inv_migrate (rows : List LegacyRow) (now : String) :
    StoreInv (migrate_sqlite rows now) := by
  have hfold : ∀ (acc : MigrateAcc), MigrateAccInv acc →
      MigrateAccInv (rows.foldl (migrate_step now) acc) := by
    induction rows with
    | nil => intro acc h; exact h
    | cons hd t ih => intro acc h; exact ih _ (migrate_step_inv now acc hd h)
  have h0 : MigrateAccInv
      { samples := [], text_latest := [], c0 := 0, c1 := 0, next_id := 1 } := by
    refine ⟨?_, ?_, ?_⟩ <;> simp [live_count0, live_count1]
  obtain ⟨a, b, c⟩ := hfold _ h0
  exact ⟨rfl, a, b, c⟩

theorem store_inv_reachable (st : SampleStore) (h : ReachableStore st) : StoreInv st := by
  induction h with
  | fresh => exact store_inv_empty
  | migrated rows now => exact store_inv_migrate rows now
  | saved text label category now _ ih => exact store_inv_save _ text label category now ih
  | deleted label count pick _ ih => exact store_inv_delete _ label count pick ih
  | cleaned max_items pick0 pick1 _ ih => exact store_inv_cleanup _ max_items pick0 pick1 ih

/-- C7: after `SampleStorage` construction (fresh or via SQLite migration)
and after every completed `save_sample` / `_delete_random_samples` /
`cleanup_excess_samples` operation, the counters satisfy
`meta:count = meta:count:0 + meta:count:1`, and `meta:next_id` is strictly
greater than every id for which a sample record exists. -/
theorem claim_C7_store_counters (st : SampleStore) (h : ReachableStore st) :
    st.meta_count = st.meta_count0 + st.meta_count1 ∧
    ∀ p ∈ st.samples, p.1 < st.meta_next_id := by
  obtain ⟨a, _, _, d⟩ := store_inv_reachable st h
  exact ⟨a, d⟩

/-- Witness for C7 at a concrete reachable store (two saves, one delete). -/
theorem claim_C7_store_counters_witness :
    (let st := (delete_random_samples
        (save_sample (save_sample empty_sample_store "a" 0 none "t0") "b" 1 (some "x") "t1")
        0 1 (fun l _ => l.take 1)).1
     st.meta_count = st.meta_count0 + st.meta_count1 ∧
     ∀ p ∈ st.samples, p.1 < st.meta_next_id) :=
  claim_C7_store_counters _
    (ReachableStore.deleted 0 1 (fun l _ => l.take 1)
      (ReachableStore.saved "b" 1 (some "x") "t1"
        (ReachableStore.saved "a" 0 none "t0" ReachableStore.fresh)))

/- ------------------------------------------------------------------
   Model of the external JSON library (`json.loads` / `orjson.loads` and
   `json.dumps` / `orjson.dumps`).  Modelled from the spec: these are
   out-of-scope external collaborators; the model covers the JSON
   fragment the proxy exchanges (objects, arrays, strings with the
   common escapes, integers, booleans, null), and serialization takes
   the separator pair as a parameter (`", " ": "` for `json.dumps`
   defaults, `"," ":"` for orjson's compact output). -/

/-- JSON whitespace accepted between tokens. -/
def is_json_ws (c : Char) : Bool :=
  c = ' ' || c = '\t' || c = '\n' || c = '\r'

/-- Opening brace character. -/
def lbrace_char : Char := Char.ofNat 123

/-- Closing brace character. -/
def rbrace_char : Char := Char.ofNat 125

/-- Value of one hexadecimal digit. -/
def hex_val (c : Char) : Option Nat :=
  if '0' ≤ c ∧ c ≤ '9' then some (c.toNat - 48)
  else if 'a' ≤ c ∧ c ≤ 'f' then some (c.toNat - 87)
  else if 'A' ≤ c ∧ c ≤ 'F' then some (c.toNat - 55)
  else none

/-- Body of a JSON string literal after the opening quote; returns the
decoded string and the input following the closing quote. -/
def read_str_body (acc : List Char) : List Char → Option (String × List Char)
  | [] => none
  | c :: rest =>
    if c = '\"' then some (String.mk acc.reverse, rest)
    else if c = '\\' then
      match rest with
      | [] => none
      | e :: rest2 =>
        if e = '\"' then read_str_body ('\"' :: acc) rest2
        else if e = '\\' then read_str_body ('\\' :: acc) rest2
        else if e = '/' then read_str_body ('/' :: acc) rest2
        else if e = 'n' then read_str_body ('\n' :: acc) rest2
        else if e = 't' then read_str_body ('\t' :: acc) rest2
        else if e = 'r' then read_str_body ('\r' :: acc) rest2
        else if e = 'b' then read_str_body (Char.ofNat 8 :: acc) rest2
        else if e = 'f' then read_str_body (Char.ofNat 12 :: acc) rest2
        else if e = 'u' then
          match rest2 with
          | h1 :: h2 :: h3 :: h4 :: rest3 =>
            match hex_val h1, hex_val h2, hex_val h3, hex_val h4 with
            | some a, some b, some c3, some d =>
                read_str_body (Char.ofNat (((a * 16 + b) * 16 + c3) * 16 + d) :: acc) rest3
            | _, _, _, _ => none
          | _ => none
        else none
    else read_str_body (c :: acc) rest

/-- ASCII decimal digit test. -/
def is_ascii_digit (c : Char) : Bool :=
  '0' ≤ c && c ≤ '9'

/-- Greedy digit reader. -/
def read_digits (acc : Nat) : List Char → Nat × List Char
  | [] => (acc, [])
  | c :: rest =>
    if is_ascii_digit c then read_digits (acc * 10 + (c.toNat - 48)) rest
    else (acc, c :: rest)

/-- Integer literal reader (floats are outside the modelled fragment and
fail the parse). -/
def read_int : List Char → Option (Int × List Char)
  | [] => none
  | '-' :: rest =>
    match rest with
    | [] => none
    | c :: _ =>
      if is_ascii_digit c then
        let r := read_digits 0 rest
        match r.2 with
        | [] => some (-(r.1 : Int), [])
        | d :: _ =>
          if d = '.' || d = 'e' || d = 'E' then none else some (-(r.1 : Int), r.2)
      else none
  | c :: rest =>
    if is_ascii_digit c then
      let r := read_digits 0 (c :: rest)
      match r.2 with
      | [] => some ((r.1 : Int), [])
      | d :: _ =>
        if d = '.' || d = 'e' || d = 'E' then none else some ((r.1 : Int), r.2)
    else none

mutual

/-- Fueled recursive-descent JSON value parser. -/
def parse_json_value : Nat → List Char → Option (Json × List Char)
  | 0, _ => none
  | Nat.succ fuel, cs =>
    match cs.dropWhile is_json_ws with
    | [] => none
    | c :: rest =>
      if c = '\"' then
        match read_str_body [] rest with
        | some (s, rest2) => some (.str s, rest2)
        | none => none
      else if c = lbrace_char then parse_obj_after_open fuel rest
      else if c = '[' then parse_arr_after_open fuel rest
      else if c = 'n' then
        if ['u', 'l', 'l'].isPrefixOf rest then some (.null, rest.drop 3) else none
      else if c = 't' then
        if ['r', 'u', 'e'].isPrefixOf rest then some (.bool true, rest.drop 3) else none
      else if c = 'f' then
        if ['a', 'l', 's', 'e'].isPrefixOf rest then some (.bool false, rest.drop 4) else none
      else
        match read_int (c :: rest) with
        | some (n, rest2) => some (.num n, rest2)
        | none => none

/-- Object parser, immediately after the opening brace. -/
def parse_obj_after_open : Nat → List Char → Option (Json × List Char)
  | 0, _ => none
  | Nat.succ fuel, cs =>
    match cs.dropWhile is_json_ws with
    | [] => none
    | c :: rest =>
      if c = rbrace_char then some (.obj [], rest)
      else parse_obj_fields fuel [] (c :: rest)

/-- Members of an object (at least one expected). -/
def parse_obj_fields : Nat → List (String × Json) → List Char → Option (Json × List Char)
  | 0, _, _ => none
  | Nat.succ fuel, acc, cs =>
    match cs.dropWhile is_json_ws with
    | [] => none
    | c :: rest =>
      if c = '\"' then
        match read_str_body [] rest with
        | some (key, rest2) =>
          match rest2.dropWhile is_json_ws with
          | ':' :: rest4 =>
            match parse_json_value fuel rest4 with
            | some (v, rest5) =>
              match rest5.dropWhile is_json_ws with
              | ',' :: rest7 => parse_obj_fields fuel (acc ++ [(key, v)]) rest7
              | d :: rest7 =>
                if d = rbrace_char then some (.obj (acc ++ [(key, v)]), rest7) else none
              | [] => none
            | none => none
          | _ => none
        | none => none
      else none

/-- Array parser, immediately after the opening bracket. -/
def parse_arr_after_open : Nat → List Char → Option (Json × List Char)
  | 0, _ => none
  | Nat.succ fuel, cs =>
    match cs.dropWhile is_json_ws with
    | [] => none
    | ']' :: rest => some (.arr [], rest)
    | c :: rest => parse_arr_items fuel [] (c :: rest)

/-- Elements of an array (at least one expected). -/
def parse_arr_items : Nat → List Json → List Char → Option (Json × List Char)
  | 0, _, _ => none
  | Nat.succ fuel, acc, cs =>
    match parse_json_value fuel cs with
    | some (v, rest) =>
      match rest.dropWhile is_json_ws with
      | ',' :: rest2 => parse_arr_items fuel (acc ++ [v]) rest2
      | ']' :: rest2 => some (.arr (acc ++ [v]), rest2)
      | _ => none
    | none => none

end

/-- Model of `json.loads` / `orjson.loads`: parse, then require only
whitespace to remain. -/
def json_loads (s : String) : Option Json :=
  match parse_json_value (2 * s.length + 4) s.data with
  | some (j, rest) => if (rest.dropWhile is_json_ws).isEmpty then some j else none
  | none => none

/-- Escapes used by the serializer model. -/
def json_escape_char (c : Char) : List Char :=
  if c = '\"' then ['\\', '\"']
  else if c = '\\' then ['\\', '\\']
  else if c = '\n' then ['\\', 'n']
  else if c = '\t' then ['\\', 't']
  else if c = '\r' then ['\\', 'r']
  else [c]

/-- Double-quoted JSON string literal. -/
def dq_string (s : String) : String :=
  String.mk ('\"' :: s.data.foldr (fun c acc => json_escape_char c ++ acc) ['\"'])

mutual

/-- Serializer model for one JSON value, parameterized by the separators. -/
def json_dump_val (sep_item sep_kv : String) : Json → String
  | .null => "null"
  | .bool true => "true"
  | .bool false => "false"
  | .num n => toString n
  | .str s => dq_string s
  | .arr items => "[" ++ json_dump_items sep_item sep_kv items ++ "]"
  | .obj fields =>
    String.singleton lbrace_char ++ json_dump_fields sep_item sep_kv fields ++
      String.singleton rbrace_char

/-- Serializer model for array elements. -/
def json_dump_items (sep_item sep_kv : String) : List Json → String
  | [] => ""
  | [x] => json_dump_val sep_item sep_kv x
  | x :: y :: rest =>
    json_dump_val sep_item sep_kv x ++ sep_item ++ json_dump_items sep_item sep_kv (y :: rest)

/-- Serializer model for object members. -/
def json_dump_fields (sep_item sep_kv : String) : List (String × Json) → String
  | [] => ""
  | [(k, v)] => dq_string k ++ sep_kv ++ json_dump_val sep_item sep_kv v
  | (k, v) :: y :: rest =>
    dq_string k ++ sep_kv ++ json_dump_val sep_item sep_kv v ++ sep_item ++
      json_dump_fields sep_item sep_kv (y :: rest)

end

/-- `json.dumps(obj, ensure_ascii=False)` with Python's default separators. -/
def json_dumps_py (j : Json) : String :=
  json_dump_val ", " ": " j

/-- `orjson.dumps(...).decode("utf-8")` (compact separators). -/
def json_dumps_compact (j : Json) : String :=
  json_dump_val "," ":" j

/-- Sanity check of the parser model on an object literal. -/
theorem json_loads_sanity_obj :
    json_loads "\x7b\"x\": 1, \"y\": [true, null]\x7d" =
      some (Json.obj [("x", Json.num 1), ("y", Json.arr [Json.bool true, Json.null])]) := by
  rfl

/-- Sanity check: a truncated object fails to parse. -/
theorem json_loads_sanity_truncated : json_loads "\x7b\"x\":" = none := by
  rfl

/-- Sanity check of the serializer model. -/
theorem json_dumps_sanity :
    json_dumps_compact (Json.obj [("x", Json.num 1)]) = "\x7b\"x\":1\x7d" := by
  rfl

/- ------------------------------------------------------------------
   C9: basic keyword moderation. -/

theorem find?_map_assoc {α β : Type} (f : α → β) (l : List α) (p : β → Bool) :
    (l.map f).find? p = (l.find? (fun a => p (f a))).map f := by
  induction l with
  | nil => rfl
  | cons hd t ih =>
    by_cases h : p (f hd) = true
    · simp [List.find?_cons, h]
    · simp only [List.map_cons, List.find?_cons]
      rw [Bool.not_eq_true] at h
      simp [h, ih]

/-- C9 counterexample: with keywords file line `a.b` and text `xa.by`, the
request is blocked, but the reported reason carries the `re.escape`d pattern
(backslash before the dot), so it does not contain `Matched keyword: a.b`
with the keyword exactly as written in the file. -/
theorem claim_C9_keyword_reason_counterexample :
    (basic_moderation "xa.by" ⟨true, none⟩ ⟨0, []⟩ true 1 ["a.b"]).2 =
      (false, some "[BASIC_MODERATION_BLOCKED] Matched keyword: a\\.b") ∧
    str_contains "[BASIC_MODERATION_BLOCKED] Matched keyword: a\\.b"
      "Matched keyword: a.b" = false :=
  ⟨by decide, by decide⟩

/-- C9 (amended): with basic moderation enabled and the keywords file
freshly (re)loaded — its mtime differs from the cached one — the request is
blocked iff some non-empty, non-comment line of the file occurs in the text
as a case-insensitive literal substring; on a block the reason is the error
tag followed by `Matched keyword: ` and the `re.escape` of the first
matching keyword (the keyword verbatim whenever it contains no regex
metacharacter); on a pass no reason is reported; and the filter state ends
up holding the file's current mtime and freshly compiled patterns. -/
theorem claim_C9_basic_moderation_amended (lines : List String) (text : String)
    (cfg : BasicModerationCfg) (st : KeywordFilterSt) (file_mtime : Int)
    (hen : cfg.enabled = true) (hmt : file_mtime ≠ st.mtime) :
    ((basic_moderation text cfg st true file_mtime lines).2.1 = false ↔
      ∃ kw ∈ keyword_lines lines,
        str_contains (str_lower text) (str_lower kw) = true) ∧
    (∀ kw0, first_matching_keyword lines text = some kw0 →
      (basic_moderation text cfg st true file_mtime lines).2.2 =
        some ("[" ++ cfg.error_code.getD "BASIC_MODERATION_BLOCKED" ++
          "] Matched keyword: " ++ re_escape kw0)) ∧
    ((basic_moderation text cfg st true file_mtime lines).2.1 = true →
      (basic_moderation text cfg st true file_mtime lines).2.2 = none) ∧
    (basic_moderation text cfg st true file_mtime lines).1 =
      ⟨file_mtime, load_patterns lines⟩ := by
  have hreload : reload_if_needed st true file_mtime lines =
      ⟨file_mtime, load_patterns lines⟩ := by
    simp [reload_if_needed, hmt]
  have hfind : (load_patterns lines).find?
      (fun p => str_contains (str_lower text) (str_lower p.source)) =
      (first_matching_keyword lines text).map (fun kw => ⟨kw, re_escape kw⟩) := by
    unfold load_patterns first_matching_keyword
    rw [find?_map_assoc]
  unfold basic_moderation kw_filter_match
  rw [hen]
  simp only [Bool.not_true, Bool.false_eq_true, if_false, hreload, hfind]
  cases hfm : first_matching_keyword lines text with
  | none =>
    simp only [Option.map]
    refine ⟨?_, ?_, ?_, ?_⟩
    · constructor
      · intro h
        cases h
      · intro ⟨kw, hmem, hc⟩
        have := List.find?_eq_none.mp hfm kw hmem
        simp [hc] at this
    · intro kw0 h
      cases h
    · intro _
      rfl
    · rfl
  | some kw0 =>
    simp only [Option.map]
    refine ⟨?_, ?_, ?_, ?_⟩
    · constructor
      · intro _
        have hmem := List.mem_of_find?_eq_some hfm
        have hp := List.find?_some hfm
        exact ⟨kw0, hmem, hp⟩
      · intro _
        rfl
    · intro kw1 h
      injection h with he
      subst he
      simp
    · intro h
      cases h
    · rfl

/-- Witness for C9 (amended) on the spec's scenario keyword `badword`. -/
theorem claim_C9_basic_moderation_amended_witness :
    ((basic_moderation "see badword here" ⟨true, none⟩ ⟨0, []⟩ true 5 ["badword"]).2.1 = false ↔
      ∃ kw ∈ keyword_lines ["badword"],
        str_contains (str_lower "see badword here") (str_lower kw) = true) ∧
    (∀ kw0, first_matching_keyword ["badword"] "see badword here" = some kw0 →
      (basic_moderation "see badword here" ⟨true, none⟩ ⟨0, []⟩ true 5 ["badword"]).2.2 =
        some ("[" ++ (none : Option String).getD "BASIC_MODERATION_BLOCKED" ++
          "] Matched keyword: " ++ re_escape kw0)) ∧
    ((basic_moderation "see badword here" ⟨true, none⟩ ⟨0, []⟩ true 5 ["badword"]).2.1 = true →
      (basic_moderation "see badword here" ⟨true, none⟩ ⟨0, []⟩ true 5 ["badword"]).2.2 = none) ∧
    (basic_moderation "see badword here" ⟨true, none⟩ ⟨0, []⟩ true 5 ["badword"]).1 =
      ⟨5, load_patterns ["badword"]⟩ :=
  claim_C9_basic_moderation_amended ["badword"] "see badword here" ⟨true, none⟩ ⟨0, []⟩ 5
    rfl (by decide)

/- ------------------------------------------------------------------
   `ai_proxy/moderation/smart/ai.py`: AI adjudication and the three-way
   smart-moderation decision. -/

/-- `ModerationResult` (pydantic model).  The probability is a rational in
the embedding. -/
structure ModerationResult where
  violation : Bool
  category : Option String
  reason : Option String
  source : String
  confidence : Option Rat
deriving Repr, DecidableEq

/-- Python `content.find(c)`. -/
def find_char (s : String) (c : Char) : Option Nat :=
  s.data.findIdx? (fun d => d = c)

/-- Python `content.rfind(c)`. -/
def rfind_char (s : String) (c : Char) : Option Nat :=
  match s.data.reverse.findIdx? (fun d => d = c) with
  | some i => some (s.data.length - 1 - i)
  | none => none

/-- The `content[start:end]` slice taken by `ai_moderate`: from the first
brace through the last closing brace, when `start >= 0 and end > start`. -/
def brace_slice (content : String) : Option String :=
  match find_char content lbrace_char, rfind_char content rbrace_char with
  | some s, some e =>
    if s < e + 1 then some (String.mk ((content.data.drop s).take (e + 1 - s))) else none
  | _, _ => none

/-- Python `content[:200]`. -/
def take_str (s : String) (n : Nat) : String :=
  String.mk (s.data.take n)

/-- Pydantic coercion of the `violation` JSON field
(`data.get("violation", False)`): booleans stay, numbers coerce by
non-zeroness, anything else (and absence) is `False`. -/
def json_field_bool (data : Json) (k : String) : Bool :=
  match data.get? k with
  | some (.bool b) => b
  | some (.num n) => n ≠ 0
  | _ => false

/-- Pydantic coercion of an `Optional[str]` field (`data.get(k)`). -/
def json_field_str (data : Json) (k : String) : Option String :=
  match data.get? k with
  | some (.str s) => some s
  | _ => none

/-- Model of the message carried by the `json.JSONDecodeError` raised on a
malformed payload (the external library's text is summarized). -/
def json_decode_error_text (payload : String) : String :=
  "Invalid JSON payload: " ++ payload

/-- Result produced by the `except` branch of `ai_moderate`. -/
def ai_error_result (e : String) : ModerationResult :=
  { violation := false, category := some "error",
    reason := some ("AI call failed: " ++ e), source := "ai", confidence := none }

/-- Keywords of the no-brace fallback branch of `ai_moderate`. -/
def ai_fallback_keywords : List String :=
  ["违规", "violation", "不当"]

/-- `ai_moderate(text, profile)`: the chat-completion call is an external
effect, passed as its outcome (`.ok content` or `.error e`); everything
after the call is embedded from the source.  A `json.loads` failure is
raised inside the same `try` and lands in the `except` branch. -/
def ai_moderate (call_outcome : Except String String) : ModerationResult :=
  match call_outcome with
  | .error e => ai_error_result e
  | .ok content =>
    match brace_slice content with
    | some sliced =>
      match json_loads sliced with
      | some data =>
        { violation := json_field_bool data "violation",
          category := json_field_str data "category",
          reason := json_field_str data "reason",
          source := "ai", confidence := none }
      | none => ai_error_result (json_decode_error_text sliced)
    | none =>
      let lowered := str_lower content
      let violation := ai_fallback_keywords.any (fun w => str_contains lowered w)
      { violation := violation, category := some "unknown",
        reason := some (take_str content 200), source := "ai", confidence := none }

/-- `run_ai_moderation_and_log`: adjudicate, then persist one sample with
the adjudicator's label and category. -/
def run_ai_moderation_and_log (call_outcome : Except String String) (text : String)
    (store : SampleStore) (now : String) : ModerationResult × SampleStore :=
  let result := ai_moderate call_outcome
  let label : Nat := if result.violation then 1 else 0
  (result, save_sample store text label result.category now)

/-- `profile.config.probability` (the `profile.py` module is not under
`src/`; modelled from the spec's Moderation Profile section). -/
structure ProbabilityCfg where
  ai_review_rate : Rat
  low_risk_threshold : Rat
  high_risk_threshold : Rat
  random_seed : Nat
deriving Repr, DecidableEq

/-- Moderation profile record (spec-modelled carrier of `probability`). -/
structure ModerationProfile where
  probability : ProbabilityCfg
deriving Repr, DecidableEq

/-- Recognized keys of the `smart_moderation` config dict. -/
structure SmartModerationCfg where
  enabled : Bool
  profile : String
deriving Repr, DecidableEq

/-- External collaborators of `smart_moderation`, passed as functions: the
process-global Mersenne-Twister RNG (`random.seed` / `random.random` over an
abstract `Nat` state), `get_profile` (module absent from `src/`), the local
model probe and prediction, and the adjudicator call outcome per text. -/
structure SmartDeps where
  rng_seed_init : Nat → Nat
  rng_random : Nat → Rat × Nat
  profiles : String → ModerationProfile
  bow_model_present : String → Bool
  bow_predict_proba : String → String → Except String Rat
  ai_call : String → Except String String

/-- Process state threaded through `smart_moderation`: the global RNG state
and the profile's sample store. -/
structure SmartState where
  rng : Nat
  store : SampleStore
deriving Repr

/-- The step-1 draw of `smart_moderation`: `random.seed(seed)` resets the
process-global RNG from the profile's seed, then `random.random()` draws. -/
def step_one_draw (deps : SmartDeps) (profile : ModerationProfile) : Rat × Nat :=
  deps.rng_random (deps.rng_seed_init profile.probability.random_seed)

/-- Python `f"{p:.3f}"` (model: round-half-up to three decimals). -/
def fmt3 (p : Rat) : String :=
  let m : Int := ⌊p * 1000 + 1 / 2⌋
  let sign := if m < 0 then "-" else ""
  let a := m.natAbs
  let frac := a % 1000
  let pad :=
    if frac < 10 then "00" else if frac < 100 then "0" else ""
  sign ++ toString (a / 1000) ++ "." ++ pad ++ toString frac

/-- `smart_moderation(text, cfg)`: the three-way decision.  Returns the
`(passed, result)` pair and the updated process state. -/
def smart_moderation (deps : SmartDeps) (text : String) (cfg : SmartModerationCfg)
    (st : SmartState) (now : String) : (Bool × Option ModerationResult) × SmartState :=
  if ¬ cfg.enabled then ((true, none), st)
  else
    let profile := deps.profiles cfg.profile
    let draw := step_one_draw deps profile
    let r := draw.1
    let rng2 := draw.2
    let ai_rate := profile.probability.ai_review_rate
    if r < ai_rate then
      let out := run_ai_moderation_and_log (deps.ai_call text) text st.store now
      ((!out.1.violation, some out.1), ⟨rng2, out.2⟩)
    else if deps.bow_model_present cfg.profile then
      match deps.bow_predict_proba cfg.profile text with
      | .ok p =>
        let low_t := profile.probability.low_risk_threshold
        let high_t := profile.probability.high_risk_threshold
        if p < low_t then
          let res : ModerationResult :=
            { violation := false, category := none,
              reason := some ("BoW: low risk (p=" ++ fmt3 p ++ ")"),
              source := "bow_model", confidence := some p }
          ((true, some res), ⟨rng2, st.store⟩)
        else if high_t < p then
          let res : ModerationResult :=
            { violation := true, category := none,
              reason := some ("BoW: high risk (p=" ++ fmt3 p ++ ")"),
              source := "bow_model", confidence := some p }
          ((false, some res), ⟨rng2, st.store⟩)
        else
          let out := run_ai_moderation_and_log (deps.ai_call text) text st.store now
          ((!out.1.violation, some out.1), ⟨rng2, out.2⟩)
      | .error _ =>
        let out := run_ai_moderation_and_log (deps.ai_call text) text st.store now
        ((!out.1.violation, some out.1), ⟨rng2, out.2⟩)
    else
      let out := run_ai_moderation_and_log (deps.ai_call text) text st.store now
      ((!out.1.violation, some out.1), ⟨rng2, out.2⟩)

theorem assoc_set_length_of_new_key {κ α : Type} [DecidableEq κ]
    (l : List (κ × α)) (k : κ) (v : α) (h : ∀ p ∈ l, p.1 ≠ k) :
    (assoc_set l k v).length = l.length + 1 := by
  induction l with
  | nil => rfl
  | cons hd t ih =>
    obtain ⟨k1, v1⟩ := hd
    have hk1 : k1 ≠ k := h (k1, v1) (List.mem_cons_self _ _)
    simp only [assoc_set, if_neg hk1, List.length_cons]
    rw [ih (fun p hp => h p (List.mem_cons_of_mem _ hp))]

/-- C5 (amended): when the adjudicator call fails, or its reply carries a
brace-delimited payload that is not valid JSON, `ai_moderate` returns a
pass (`violation = false`) with source `"ai"`, category `"error"` and a
reason carrying the error text.  But a reply with *no* brace-delimited
payload — which also cannot be parsed as JSON — takes the keyword
heuristic instead: `violation` is whether the lowercased reply contains
one of the fallback keywords, the category is `"unknown"` (not an error
tag) and the reason is the reply's first 200 characters, so such a reply
*can* block the user.  `run_ai_moderation_and_log` persists exactly one
sample (with the adjudicator's label and category) for every adjudication
outcome. -/
theorem claim_C5_adjudicator_failure_amended :
    (∀ e : String, ai_moderate (.error e) =
      { violation := false, category := some "error",
        reason := some ("AI call failed: " ++ e), source := "ai", confidence := none }) ∧
    (∀ content sliced, brace_slice content = some sliced → json_loads sliced = none →
      ai_moderate (.ok content) =
        { violation := false, category := some "error",
          reason := some ("AI call failed: " ++ json_decode_error_text sliced),
          source := "ai", confidence := none }) ∧
    (∀ content, brace_slice content = none →
      ai_moderate (.ok content) =
        { violation := ai_fallback_keywords.any
            (fun w => str_contains (str_lower content) w),
          category := some "unknown", reason := some (take_str content 200),
          source := "ai", confidence := none }) ∧
    (∀ call_outcome text store now,
      (run_ai_moderation_and_log call_outcome text store now).2 =
        save_sample store text
          (if (ai_moderate call_outcome).violation then 1 else 0)
          (ai_moderate call_outcome).category now) ∧
    (∀ call_outcome text store now,
      (∀ p ∈ store.samples, p.1 < store.meta_next_id) →
      (run_ai_moderation_and_log call_outcome text store now).2.samples.length =
        store.samples.length + 1) := by
  refine ⟨fun e => rfl, ?_, ?_, fun c t s n => rfl, ?_⟩
  · intro content sliced hb hj
    simp only [ai_moderate, hb, hj]
    rfl
  · intro content hb
    simp only [ai_moderate, hb]
  · intro call_outcome text store now hbound
    show (save_sample store text _ _ now).samples.length = _
    unfold save_sample
    exact assoc_set_length_of_new_key store.samples store.meta_next_id _
      (fun p hp => Nat.ne_of_lt (hbound p hp))

/-- Witness for C5: a failed call, a non-JSON braced reply, a brace-free
reply resolved by the keyword heuristic, and the sample write on a failed
adjudication over the empty store. -/
theorem claim_C5_adjudicator_failure_amended_witness :
    ai_moderate (.error "boom") =
      { violation := false, category := some "error",
        reason := some ("AI call failed: " ++ "boom"), source := "ai", confidence := none } ∧
    ai_moderate (.ok "\x7bbad\x7d") =
      { violation := false, category := some "error",
        reason := some ("AI call failed: " ++ json_decode_error_text "\x7bbad\x7d"),
        source := "ai", confidence := none } ∧
    ai_moderate (.ok "all good") =
      { violation := false, category := some "unknown",
        reason := some (take_str "all good" 200), source := "ai", confidence := none } ∧
    (run_ai_moderation_and_log (.error "boom") "txt" empty_sample_store "now").2.samples.length =
      empty_sample_store.samples.length + 1 :=
  ⟨claim_C5_adjudicator_failure_amended.1 "boom",
   claim_C5_adjudicator_failure_amended.2.1 "\x7bbad\x7d" "\x7bbad\x7d" rfl rfl,
   claim_C5_adjudicator_failure_amended.2.2.1 "all good" rfl,
   claim_C5_adjudicator_failure_amended.2.2.2.2 (.error "boom") "txt" empty_sample_store "now"
     (by decide)⟩

/-- External collaborators for the C5 counterexample: seed 5 with the
identity reseed and a counter RNG (draw 5), AI review rate 10 so the
sampling fires, and an adjudicator replying with brace-free prose that
contains the word "violation". -/
def c5_deps : SmartDeps :=
  { rng_seed_init := fun s => s,
    rng_random := fun s => ((s : Rat), s + 1),
    profiles := fun _ => ⟨⟨10, 1, 9, 5⟩⟩,
    bow_model_present := fun _ => false,
    bow_predict_proba := fun _ _ => .error "no model",
    ai_call := fun _ => .ok "clear violation" }

/-- C5 counterexample: an adjudicator reply with no brace-delimited
payload cannot be parsed as JSON, yet `ai_moderate` does not tag it as an
error and pass — it applies the keyword heuristic, and a reply containing
"violation" yields `violation = true` with category `"unknown"`, which
blocks the user: `smart_moderation` returns passed = false on the
AI-adjudication path. -/
theorem claim_C5_no_brace_reply_blocks :
    ai_moderate (.ok "clear violation") =
      { violation := true, category := some "unknown",
        reason := some "clear violation", source := "ai", confidence := none } ∧
    (smart_moderation c5_deps "hi" ⟨true, "default"⟩ ⟨0, empty_sample_store⟩
      "now").1.1 = false :=
  ⟨rfl, rfl⟩

/-- C1: with smart moderation enabled and the step-1 sampling draw not
firing, a present and successfully predicting local model decides: `p`
below the low threshold passes with source `"bow_model"` and writes
nothing; `p` above the high threshold blocks; `p` in between adjudicates
with the AI, persists exactly one sample with the adjudicator's label and
category, and blocks iff the adjudicator reports a violation.  With no
local model or a raising prediction, the request always falls through to
AI adjudication (whatever the draw did). -/
theorem claim_C1_smart_moderation_three_way (deps : SmartDeps) (text : String)
    (cfg : SmartModerationCfg) (st : SmartState) (now : String)
    (hen : cfg.enabled = true)
    (hlh : (deps.profiles cfg.profile).probability.low_risk_threshold ≤
      (deps.profiles cfg.profile).probability.high_risk_threshold) :
    ((¬ (step_one_draw deps (deps.profiles cfg.profile)).1 <
        (deps.profiles cfg.profile).probability.ai_review_rate) →
      ∀ p, deps.bow_model_present cfg.profile = true →
        deps.bow_predict_proba cfg.profile text = .ok p →
        ((p < (deps.profiles cfg.profile).probability.low_risk_threshold →
          smart_moderation deps text cfg st now =
            ((true, some ⟨false, none,
              some ("BoW: low risk (p=" ++ fmt3 p ++ ")"), "bow_model", some p⟩),
             ⟨(step_one_draw deps (deps.profiles cfg.profile)).2, st.store⟩)) ∧
         ((deps.profiles cfg.profile).probability.high_risk_threshold < p →
          smart_moderation deps text cfg st now =
            ((false, some ⟨true, none,
              some ("BoW: high risk (p=" ++ fmt3 p ++ ")"), "bow_model", some p⟩),
             ⟨(step_one_draw deps (deps.profiles cfg.profile)).2, st.store⟩)) ∧
         ((deps.profiles cfg.profile).probability.low_risk_threshold ≤ p →
          p ≤ (deps.profiles cfg.profile).probability.high_risk_threshold →
          smart_moderation deps text cfg st now =
            ((!(ai_moderate (deps.ai_call text)).violation,
              some (ai_moderate (deps.ai_call text))),
             ⟨(step_one_draw deps (deps.profiles cfg.profile)).2,
              save_sample st.store text
                (if (ai_moderate (deps.ai_call text)).violation then 1 else 0)
                (ai_moderate (deps.ai_call text)).category now⟩)))) ∧
    ((deps.bow_model_present cfg.profile = false ∨
      (∃ e, deps.bow_predict_proba cfg.profile text = .error e)) →
      smart_moderation deps text cfg st now =
        ((!(ai_moderate (deps.ai_call text)).violation,
          some (ai_moderate (deps.ai_call text))),
         ⟨(step_one_draw deps (deps.profiles cfg.profile)).2,
          save_sample st.store text
            (if (ai_moderate (deps.ai_call text)).violation then 1 else 0)
            (ai_moderate (deps.ai_call text)).category now⟩)) := by
  constructor
  · intro hdraw p hbp hok
    refine ⟨?_, ?_, ?_⟩
    · intro hlow
      unfold smart_moderation
      rw [hen]
      simp only [Bool.not_true, Bool.false_eq_true, if_false, if_neg hdraw, hbp, if_true,
        hok, if_pos hlow]
      simp
    · intro hhigh
      have hnl : ¬ p < (deps.profiles cfg.profile).probability.low_risk_threshold :=
        not_lt.mpr (le_of_lt (lt_of_le_of_lt hlh hhigh))
      unfold smart_moderation
      rw [hen]
      simp only [Bool.not_true, Bool.false_eq_true, if_false, if_neg hdraw, hbp, if_true,
        hok]
      rw [if_neg hnl, if_pos hhigh]
      simp
    · intro hge hle
      have hnl : ¬ p < (deps.profiles cfg.profile).probability.low_risk_threshold :=
        not_lt.mpr hge
      have hnh : ¬ (deps.profiles cfg.profile).probability.high_risk_threshold < p :=
        not_lt.mpr hle
      unfold smart_moderation
      rw [hen]
      simp only [Bool.not_true, Bool.false_eq_true, if_false, if_neg hdraw, hbp, if_true,
        hok]
      rw [if_neg hnl, if_neg hnh]
      rfl
  · intro h
    unfold smart_moderation
    rw [hen]
    simp only [Bool.not_true, Bool.false_eq_true, if_false]
    by_cases hd : (step_one_draw deps (deps.profiles cfg.profile)).1 <
        (deps.profiles cfg.profile).probability.ai_review_rate
    · rw [if_pos hd]
      rfl
    · rw [if_neg hd]
      rcases h with hfalse | ⟨e, herr⟩
      · rw [hfalse]
        simp only [Bool.false_eq_true, if_false]
        rfl
      · by_cases hbp : deps.bow_model_present cfg.profile = true
        · rw [hbp]
          simp only [if_true, herr]
          rfl
        · rw [Bool.not_eq_true] at hbp
          rw [hbp]
          simp only [Bool.false_eq_true, if_false]
          rfl

/-- Concrete dependency bundle for the smart-moderation witnesses: seed 5,
draw 5, review rate 1 (the sampling comparison declines), local model
present with p = 0, failing adjudicator. -/
def smart_witness_deps : SmartDeps :=
  { rng_seed_init := fun n => n,
    rng_random := fun s => ((s : Rat), s + 1),
    profiles := fun _ => ⟨⟨1, 1, 9, 5⟩⟩,
    bow_model_present := fun _ => true,
    bow_predict_proba := fun _ _ => .ok 0,
    ai_call := fun _ => .error "x" }

/-- Witness for C1: the low-risk branch passes with source `bow_model` and
leaves the store untouched. -/
theorem claim_C1_smart_moderation_three_way_witness :
    smart_moderation smart_witness_deps "hello" ⟨true, "default"⟩ ⟨7, empty_sample_store⟩
      "now" =
      ((true, some ⟨false, none, some ("BoW: low risk (p=" ++ fmt3 0 ++ ")"),
        "bow_model", some 0⟩),
       ⟨6, empty_sample_store⟩) :=
  ((claim_C1_smart_moderation_three_way smart_witness_deps "hello" ⟨true, "default"⟩
      ⟨7, empty_sample_store⟩ "now" rfl (by decide)).1 (by decide) 0 rfl rfl).1
    (by decide)

/-- The local-model path of `smart_moderation` (steps 2 and 3 of the
decision: everything after the sampling draw declined). -/
def smart_moderation_local_path (deps : SmartDeps) (text : String)
    (cfg : SmartModerationCfg) (store : SampleStore) (now : String) :
    (Bool × Option ModerationResult) × SmartState :=
  let profile := deps.profiles cfg.profile
  let rng2 := (step_one_draw deps profile).2
  if deps.bow_model_present cfg.profile then
    match deps.bow_predict_proba cfg.profile text with
    | .ok p =>
      let low_t := profile.probability.low_risk_threshold
      let high_t := profile.probability.high_risk_threshold
      if p < low_t then
        let res : ModerationResult :=
          { violation := false, category := none,
            reason := some ("BoW: low risk (p=" ++ fmt3 p ++ ")"),
            source := "bow_model", confidence := some p }
        ((true, some res), ⟨rng2, store⟩)
      else if high_t < p then
        let res : ModerationResult :=
          { violation := true, category := none,
            reason := some ("BoW: high risk (p=" ++ fmt3 p ++ ")"),
            source := "bow_model", confidence := some p }
        ((false, some res), ⟨rng2, store⟩)
      else
        let out := run_ai_moderation_and_log (deps.ai_call text) text store now
        ((!out.1.violation, some out.1), ⟨rng2, out.2⟩)
    | .error _ =>
      let out := run_ai_moderation_and_log (deps.ai_call text) text store now
      ((!out.1.violation, some out.1), ⟨rng2, out.2⟩)
  else
    let out := run_ai_moderation_and_log (deps.ai_call text) text store now
    ((!out.1.violation, some out.1), ⟨rng2, out.2⟩)

/-- C10: `smart_moderation` reseeds the process RNG from the profile's
`random_seed` before drawing, so (with smart moderation enabled) its result
does not depend on the incoming RNG state at all; and the step-1 sampling
condition is a function of the profile alone, so for a fixed profile either
every request (any text, any state) is sent to AI review by the sampler, or
every request takes the local-model path — never a fraction
`ai_review_rate` of them. -/
theorem claim_C10_seeded_sampling_deterministic (deps : SmartDeps)
    (cfg : SmartModerationCfg) (now : String) (hen : cfg.enabled = true) :
    (∀ text store rng1 rng2,
      smart_moderation deps text cfg ⟨rng1, store⟩ now =
        smart_moderation deps text cfg ⟨rng2, store⟩ now) ∧
    ((step_one_draw deps (deps.profiles cfg.profile)).1 <
        (deps.profiles cfg.profile).probability.ai_review_rate →
      ∀ text rng store,
        smart_moderation deps text cfg ⟨rng, store⟩ now =
          ((!(ai_moderate (deps.ai_call text)).violation,
            some (ai_moderate (deps.ai_call text))),
           ⟨(step_one_draw deps (deps.profiles cfg.profile)).2,
            save_sample store text
              (if (ai_moderate (deps.ai_call text)).violation then 1 else 0)
              (ai_moderate (deps.ai_call text)).category now⟩)) ∧
    (¬ (step_one_draw deps (deps.profiles cfg.profile)).1 <
        (deps.profiles cfg.profile).probability.ai_review_rate →
      ∀ text rng store,
        smart_moderation deps text cfg ⟨rng, store⟩ now =
          smart_moderation_local_path deps text cfg store now) := by
  refine ⟨?_, ?_, ?_⟩
  · intro text store rng1 rng2
    unfold smart_moderation
    rw [hen]
    simp
  · intro hfire text rng store
    unfold smart_moderation
    rw [hen]
    simp only [Bool.not_true, Bool.false_eq_true, if_false]
    rw [if_pos hfire]
    rfl
  · intro hnofire text rng store
    unfold smart_moderation
    rw [hen]
    simp only [Bool.not_true, Bool.false_eq_true, if_false]
    rw [if_neg hnofire]
    rfl

/-- Witness for C10: two runs from different RNG states coincide. -/
theorem claim_C10_seeded_sampling_deterministic_witness :
    smart_moderation smart_witness_deps "a" ⟨true, "default"⟩ ⟨3, empty_sample_store⟩ "n" =
      smart_moderation smart_witness_deps "a" ⟨true, "default"⟩ ⟨99, empty_sample_store⟩
        "n" :=
  (claim_C10_seeded_sampling_deterministic smart_witness_deps ⟨true, "default"⟩ "n" rfl).1
    "a" empty_sample_store 3 99

/- ------------------------------------------------------------------
   Internal Chat Request (modelled from the spec: `internal_models.py` is
   not under `src/`; the spec's Data Model section and the constructor
   calls in the format modules fix the fields).  Pydantic optional fields
   become `Option`; `tool_choice` is carried verbatim as JSON (`null`
   both for JSON null and for absence, as in Python). -/

/-- Tool-call block payload. -/
structure InternalToolCall where
  id : String
  name : String
  arguments : Json
deriving Repr, Inhabited

/-- Tool-result block payload. -/
structure InternalToolResult where
  call_id : String
  name : Option String
  output : Json
deriving Repr, Inhabited

/-- Image block payload. -/
structure InternalImageBlock where
  url : String
  detail : Json
deriving Repr, Inhabited

/-- Tagged content block (`type` discriminates; unused payloads are
`none`, Python `None`). -/
structure InternalContentBlock where
  type : String
  text : String := ""
  image_url : Option InternalImageBlock := none
  tool_call : Option InternalToolCall := none
  tool_result : Option InternalToolResult := none
deriving Repr, Inhabited

/-- One chat message. -/
structure InternalMessage where
  role : String
  content : List InternalContentBlock
deriving Repr, Inhabited

/-- Tool definition. -/
structure InternalTool where
  name : String
  description : Option String
  input_schema : Json
deriving Repr, Inhabited

/-- The canonical Internal Chat Request. -/
structure InternalChatRequest where
  messages : List InternalMessage
  model : String
  stream : Bool
  tools : List InternalTool
  tool_choice : Json
  extra : List (String × Json)
deriving Repr, Inhabited

/-- Python `"\n".join(xs)`. -/
def join_nl (xs : List String) : String :=
  String.intercalate "\n" xs

/-- Pydantic-style read of a string field with a default
(`d.get(k, default)` feeding a `str` field; a present non-string raises). -/
def get_str_or (j : Json) (k : String) (d : String) : Except String String :=
  match j.get? k with
  | none => .ok d
  | some (.str s) => .ok s
  | some _ => .error ("ValidationError: " ++ k)

/-- Pydantic-style read of an `Optional[str]` field. -/
def get_opt_str (j : Json) (k : String) : Except String (Option String) :=
  match j.get? k with
  | none => .ok none
  | some .null => .ok none
  | some (.str s) => .ok (some s)
  | some _ => .error ("ValidationError: " ++ k)

/-- Pydantic-style read of a boolean field with a default. -/
def get_bool_or (j : Json) (k : String) (d : Bool) : Except String Bool :=
  match j.get? k with
  | none => .ok d
  | some (.bool b) => .ok b
  | some _ => .error ("ValidationError: " ++ k)

/-- JSON rendering of an optional string (Python `None` → JSON null). -/
def opt_str_json : Option String → Json
  | some s => .str s
  | none => .null

/-- Python `str()` of a decoded JSON value (lists/objects are approximated
by their JSON text; the sources apply this only to scalars and lists of
scalars). -/
def py_str_of_json : Json → String
  | .str s => s
  | .null => "None"
  | .bool true => "True"
  | .bool false => "False"
  | .num n => toString n
  | .arr xs => json_dumps_py (.arr xs)
  | .obj fs => json_dumps_py (.obj fs)

/- ------------------------------------------------------------------
   `ai_proxy/transform/formats/openai_chat.py`. -/

/-- `can_parse_openai_chat`. -/
def can_parse_openai_chat (path : String) (headers : List (String × String))
    (body : Json) : Bool :=
  if body.hasKey "prompt" && !(body.hasKey "messages") then false
  else if str_contains path "/chat/completions" then true
  else if body.hasKey "messages" then
    match body.get? "messages" with
    | some (.arr (first :: _)) =>
      match first with
      | .obj fields => al_has fields "role"
      | _ => false
    | _ => false
  else false

/-- Tool-definition entries of `from_openai_chat` (a `function`-typed entry
missing its `function` or `name` raises). -/
def parse_openai_tool_def (t : Json) : Except String (Option InternalTool) :=
  match t.get? "type" with
  | some (.str "function") =>
    match t.get? "function" with
    | some func => do
      let name ← match func.get? "name" with
        | some (.str s) => Except.ok s
        | some _ => Except.error "ValidationError: name"
        | none => Except.error "KeyError: name"
      let desc ← get_opt_str func "description"
      Except.ok (some ⟨name, desc, func.getD "parameters" (.obj [])⟩)
    | none => .error "KeyError: function"
  | _ => .ok none

/-- Texts of the `text`-typed parts of a multi-part content list
(`p.get("text", "")`; non-string `text` values are outside the modelled
fragment and read as `""`). -/
def openai_content_texts (parts : List Json) : List String :=
  parts.filterMap (fun p =>
    match p.get? "type" with
    | some (.str "text") =>
      some (match p.get? "text" with
        | some (.str t) => t
        | _ => "")
    | _ => none)

/-- One `tool_calls` entry of `from_openai_chat` (string arguments are
JSON-parsed, parse failure yields `{}`; non-strings pass through). -/
def parse_openai_tool_call (tc : Json) : Except String InternalContentBlock := do
  let fn := tc.getD "function" (.obj [])
  let args_json :=
    match fn.get? "arguments" with
    | some (.str s) => (json_loads s).getD (.obj [])
    | some j => j
    | none => Json.obj []
  let id ← get_str_or tc "id" ""
  let name ← get_str_or fn "name" ""
  Except.ok ⟨"tool_call", "", none, some ⟨id, name, args_json⟩, none⟩

/-- One message of `from_openai_chat`: text block, then the tool-role
result block, then tool-call blocks; an empty message gets one empty text
block. -/
def parse_openai_message (msg : Json) : Except String InternalMessage := do
  let text_blocks : List InternalContentBlock :=
    match msg.get? "content" with
    | some (.str s) => if s ≠ "" then [⟨"text", s, none, none, none⟩] else []
    | some (.arr parts) =>
      let texts := openai_content_texts parts
      if texts.isEmpty then [] else [⟨"text", join_nl texts, none, none, none⟩]
    | _ => []
  let is_tool : Bool := match msg.get? "role" with
    | some (.str r) => r == "tool"
    | _ => false
  let tr_blocks : List InternalContentBlock ←
    if is_tool then do
      let cid ← get_str_or msg "tool_call_id" ""
      let nm ← get_opt_str msg "name"
      Except.ok [⟨"tool_result", "", none, none, some ⟨cid, nm, msg.getD "content" (.str "")⟩⟩]
    else Except.ok []
  let tc_blocks : List InternalContentBlock ←
    match msg.get? "tool_calls" with
    | some (.arr tcs) => tcs.mapM parse_openai_tool_call
    | _ => Except.ok []
  let blocks := text_blocks ++ tr_blocks ++ tc_blocks
  let blocks := if blocks.isEmpty then [⟨"text", "", none, none, none⟩] else blocks
  let role ← get_str_or msg "role" "user"
  Except.ok ⟨role, blocks⟩

/-- Keys excluded from `extra` by `from_openai_chat`. -/
def openai_chat_reserved_keys : List String :=
  ["messages", "model", "stream", "tools", "tool_choice"]

/-- `from_openai_chat`. -/
def from_openai_chat (body : Json) : Except String InternalChatRequest := do
  match body with
  | .obj fields => do
    let tools ← match al_get fields "tools" with
      | some (.arr ts) => do
          let opts ← ts.mapM parse_openai_tool_def
          Except.ok (opts.filterMap id)
      | _ => Except.ok []
    let messages ← match al_get fields "messages" with
      | some (.arr ms) => ms.mapM parse_openai_message
      | _ => Except.ok []
    let model ← get_str_or body "model" ""
    let stream ← get_bool_or body "stream" false
    Except.ok
      { messages := messages, model := model, stream := stream, tools := tools,
        tool_choice := (al_get fields "tool_choice").getD .null,
        extra := fields.filter (fun p => !(openai_chat_reserved_keys.contains p.1)) }
  | _ => .error "AttributeError: body is not a dict"

/-- Tool definition encoding of `to_openai_chat`. -/
def dump_openai_tool_def (t : InternalTool) : Json :=
  .obj [("type", .str "function"),
        ("function", .obj [("name", .str t.name),
                           ("description", opt_str_json t.description),
                           ("parameters", t.input_schema)])]

/-- One message of `to_openai_chat`: the non-tool message (with joined
text, `""` when neither text nor tool calls, and re-serialized tool-call
arguments) followed by one `tool` message per tool-result block.  A
`tool_call`/`tool_result`-typed block with a `None` payload raises
(`tc.id` on `None`). -/
def encode_openai_message (m : InternalMessage) : Except String (List Json) := do
  let text_blocks := ((m.content.filter (fun b => b.type = "text" && b.text ≠ "")).map
    (fun b => b.text))
  let tool_call_blocks ← (m.content.filter (fun b => b.type = "tool_call")).mapM (fun b =>
    match b.tool_call with
    | some tc => Except.ok tc
    | none => Except.error "AttributeError: NoneType has no attribute id")
  let tool_result_blocks ← (m.content.filter (fun b => b.type = "tool_result")).mapM (fun b =>
    match b.tool_result with
    | some tr => Except.ok tr
    | none => Except.error "AttributeError: NoneType has no attribute call_id")
  let main : List Json :=
    if m.role ≠ "tool" then
      let base := [("role", Json.str m.role)]
      let base :=
        if ¬ text_blocks.isEmpty then base ++ [("content", Json.str (join_nl text_blocks))]
        else if tool_call_blocks.isEmpty then base ++ [("content", Json.str "")]
        else base
      let base :=
        if ¬ tool_call_blocks.isEmpty then
          base ++ [("tool_calls", Json.arr (tool_call_blocks.map (fun tc =>
            Json.obj [("id", .str tc.id), ("type", .str "function"),
                      ("function", .obj [("name", .str tc.name),
                                         ("arguments", .str (json_dumps_py tc.arguments))])])))]
        else base
      [Json.obj base]
    else []
  let tool_msgs := tool_result_blocks.map (fun tr =>
    Json.obj [("role", .str "tool"), ("tool_call_id", .str tr.call_id),
              ("name", opt_str_json tr.name),
              ("content", Json.str (match tr.output with
                | .obj fs => json_dumps_py (.obj fs)
                | other => py_str_of_json other))])
  Except.ok (main ++ tool_msgs)

/-- `to_openai_chat`. -/
def to_openai_chat (req : InternalChatRequest) : Except String Json := do
  let tools := req.tools.map dump_openai_tool_def
  let msg_lists ← req.messages.mapM encode_openai_message
  let messages := msg_lists.flatten
  let base := [("model", Json.str req.model), ("messages", Json.arr messages),
               ("stream", Json.bool req.stream)]
  let base := if ¬ tools.isEmpty then base ++ [("tools", Json.arr tools)] else base
  let base :=
    match req.tool_choice with
    | .null => base
    | tc => base ++ [("tool_choice", tc)]
  Except.ok (.obj (req.extra.foldl (fun acc p => al_set acc p.1 p.2) base))

/- ------------------------------------------------------------------
   `ai_proxy/transform/formats/gemini_chat.py`. -/

/-- `can_parse_gemini_chat` (embedded from the source; note it is not
registered in `PARSERS`). -/
def can_parse_gemini_chat (path : String) (headers : List (String × String))
    (body : Json) : Bool :=
  if str_contains path "generativelanguage.googleapis.com" then true
  else if str_contains path "generateContent" || str_contains path "streamGenerateContent" then
    true
  else if str_contains path "aistudio.google.com" || str_contains path "/v1beta/models/" then
    true
  else
    match body.get? "contents" with
    | some (.arr (first :: _)) =>
      match first with
      | .obj fields =>
        match al_get fields "parts" with
        | some (.arr _) =>
          let role := match al_get fields "role" with
            | some (.str r) => r
            | _ => ""
          if role = "model" then true
          else if role = "user" then
            body.hasKey "generationConfig" || body.hasKey "safetySettings"
          else false
        | _ => false
      | _ => false
    | _ => false

/-- One `parts` entry of `from_gemini_chat`. -/
def from_gemini_part (part : Json) : Except String (Option InternalContentBlock) :=
  if part.hasKey "text" then do
    let t ← get_str_or part "text" ""
    Except.ok (some ⟨"text", t, none, none, none⟩)
  else if part.hasKey "functionCall" then do
    let fc := part.getD "functionCall" .null
    let id ← get_str_or fc "id" ""
    let name ← get_str_or fc "name" ""
    Except.ok (some ⟨"tool_call", "", none, some ⟨id, name, fc.getD "args" (.obj [])⟩, none⟩)
  else if part.hasKey "functionResponse" then do
    let fr := part.getD "functionResponse" .null
    let id ← get_str_or fr "id" ""
    let nm ← get_opt_str fr "name"
    Except.ok (some ⟨"tool_result", "", none, none, some ⟨id, nm, fr.getD "response" (.obj [])⟩⟩)
  else Except.ok none

/-- One `contents` entry of `from_gemini_chat` (`model` role rewritten to
`assistant`; empty part list gets one empty text block). -/
def from_gemini_content (content : Json) : Except String InternalMessage := do
  let role0 ← get_str_or content "role" "user"
  let role := if role0 = "model" then "assistant" else role0
  let parts := match content.get? "parts" with
    | some (.arr ps) => ps
    | _ => []
  let blocks0 ← parts.mapM from_gemini_part
  let blocks := blocks0.filterMap id
  let blocks := if blocks.isEmpty then [⟨"text", "", none, none, none⟩] else blocks
  Except.ok ⟨role, blocks⟩

/-- Keys excluded from the trailing `extra` merge of `from_gemini_chat`. -/
def gemini_reserved_keys : List String :=
  ["contents", "model", "tools", "toolConfig", "generationConfig", "safetySettings"]

/-- `from_gemini_chat` (streaming is inferred from the URL verb; the
default model name is `gemini-2.5-flash` when the body has none). -/
def from_gemini_chat (body : Json) (path : String := "") :
    Except String InternalChatRequest := do
  match body with
  | .obj fields => do
    let contents := match al_get fields "contents" with
      | some (.arr cs) => cs
      | _ => []
    let messages ← contents.mapM from_gemini_content
    let tools ← match al_get fields "tools" with
      | some (.arr tds) => do
          let ll ← tds.mapM (fun td =>
            match td.get? "functionDeclarations" with
            | some (.arr fds) => fds.mapM (fun fd => do
                let nm ← get_str_or fd "name" ""
                let ds ← get_opt_str fd "description"
                Except.ok (⟨nm, ds, fd.getD "parameters" (.obj [])⟩ : InternalTool))
            | _ => Except.ok [])
          Except.ok ll.flatten
      | _ => Except.ok []
    let model ← get_str_or body "model" "gemini-2.5-flash"
    Except.ok
      { messages := messages, model := model,
        stream := str_contains path "streamGenerateContent", tools := tools,
        tool_choice := (al_get fields "toolConfig").getD .null,
        extra := [("generationConfig", body.getD "generationConfig" (.obj [])),
                  ("safetySettings", body.getD "safetySettings" (.arr []))] ++
          fields.filter (fun p => !(gemini_reserved_keys.contains p.1)) }
  | _ => .error "AttributeError: body is not a dict"

/-- One content block of `to_gemini_chat` (empty text and `None` payloads
are skipped). -/
def to_gemini_part (b : InternalContentBlock) : Option Json :=
  if b.type = "text" && b.text ≠ "" then some (.obj [("text", .str b.text)])
  else if b.type = "tool_call" then
    match b.tool_call with
    | some tc => some (.obj [("functionCall",
        .obj [("id", .str tc.id), ("name", .str tc.name), ("args", tc.arguments)])])
    | none => none
  else if b.type = "tool_result" then
    match b.tool_result with
    | some tr => some (.obj [("functionResponse",
        .obj [("id", .str tr.call_id), ("name", opt_str_json tr.name),
              ("response", tr.output)])])
    | none => none
  else none

/-- `to_gemini_chat`: system messages are hoisted into `systemInstruction`
and the model name is dropped from the body. -/
def to_gemini_chat (req : InternalChatRequest) : Except String Json :=
  let contents := req.messages.filterMap (fun msg =>
    if msg.role = "system" then none
    else
      let role := if msg.role = "assistant" then "model" else msg.role
      let parts := msg.content.filterMap to_gemini_part
      if parts.isEmpty then none
      else some (Json.obj [("role", .str role), ("parts", .arr parts)]))
  let tools : List Json :=
    if req.tools.isEmpty then []
    else [Json.obj [("functionDeclarations", .arr (req.tools.map (fun t =>
      Json.obj [("name", .str t.name), ("description", opt_str_json t.description),
                ("parameters", t.input_schema)])))]]
  let system_texts := ((req.messages.filter (fun m => m.role = "system")).map (fun m =>
    (m.content.filter (fun b => b.type = "text" && b.text ≠ "")).map
      (fun b => b.text))).flatten
  let base := [("contents", Json.arr contents)]
  let base :=
    if system_texts.isEmpty then base
    else base ++ [("systemInstruction",
      Json.obj [("parts", .arr [.obj [("text", .str (join_nl system_texts))]])])]
  let base := if tools.isEmpty then base else base ++ [("tools", .arr tools)]
  let base :=
    match req.tool_choice with
    | .null => base
    | tc => base ++ [("toolConfig", tc)]
  let base :=
    match assoc_get req.extra "generationConfig" with
    | some gc => base ++ [("generationConfig", gc)]
    | none => base
  let base :=
    match assoc_get req.extra "safetySettings" with
    | some ss => base ++ [("safetySettings", ss)]
    | none => base
  Except.ok (.obj (req.extra.foldl (fun acc p =>
    if p.1 = "generationConfig" || p.1 = "safetySettings" then acc
    else al_set acc p.1 p.2) base))

/- ------------------------------------------------------------------
   `ai_proxy/transform/formats/openai_codex.py`. -/

/-- `can_parse_openai_codex`. -/
def can_parse_openai_codex (path : String) (headers : List (String × String))
    (body : Json) : Bool :=
  if str_contains path "/chat/completions" then false
  else if (str_contains path "/completions" || str_contains path "/complete") &&
      !(str_contains path "/chat") then true
  else if body.hasKey "prompt" && !(body.hasKey "messages") then
    if body.hasKey "max_tokens" || body.hasKey "max_tokens_to_sample" then true
    else ["temperature", "top_p", "stop", "model"].any (fun k => body.hasKey k)
  else false

/-- Keys excluded from the trailing `extra` merge of `from_openai_codex`. -/
def codex_reserved_keys : List String :=
  ["prompt", "model", "stream", "max_tokens", "max_tokens_to_sample",
   "temperature", "top_p", "top_k", "stop", "stop_sequences",
   "frequency_penalty", "presence_penalty", "logprobs", "echo", "suffix"]

/-- `from_openai_codex`. -/
def from_openai_codex (body : Json) : Except String InternalChatRequest := do
  match body with
  | .obj fields => do
    let prompt := (al_get fields "prompt").getD (.str "")
    let prompt_text :=
      match prompt with
      | .str s => s
      | .arr ps => join_nl (ps.map py_str_of_json)
      | other => py_str_of_json other
    let model ← get_str_or body "model" ""
    let stream ← get_bool_or body "stream" false
    Except.ok
      { messages := [⟨"user", [⟨"text", prompt_text, none, none, none⟩]⟩],
        model := model, stream := stream, tools := [], tool_choice := .null,
        extra := [("max_tokens",
                    (al_get fields "max_tokens").getD
                      ((al_get fields "max_tokens_to_sample").getD .null)),
                  ("temperature", (al_get fields "temperature").getD .null),
                  ("top_p", (al_get fields "top_p").getD .null),
                  ("top_k", (al_get fields "top_k").getD .null),
                  ("stop",
                    (al_get fields "stop").getD
                      ((al_get fields "stop_sequences").getD .null)),
                  ("frequency_penalty", (al_get fields "frequency_penalty").getD .null),
                  ("presence_penalty", (al_get fields "presence_penalty").getD .null),
                  ("logprobs", (al_get fields "logprobs").getD .null),
                  ("echo", (al_get fields "echo").getD .null),
                  ("suffix", (al_get fields "suffix").getD .null)] ++
          fields.filter (fun p => !(codex_reserved_keys.contains p.1)) }
  | _ => .error "AttributeError: body is not a dict"

/-- `to_openai_codex`. -/
def to_openai_codex (req : InternalChatRequest) : Json :=
  let user_msgs := req.messages.filter (fun m => m.role = "user")
  let prompt_texts := (user_msgs.map (fun m =>
    (m.content.filter (fun b => b.type = "text" && b.text ≠ "")).map
      (fun b => b.text))).flatten
  let prompt := if prompt_texts.isEmpty then "" else join_nl prompt_texts
  let base := [("model", Json.str req.model), ("prompt", Json.str prompt),
               ("stream", Json.bool req.stream)]
  .obj (req.extra.foldl (fun acc p => al_set acc p.1 p.2) base)

/- ------------------------------------------------------------------
   `ai_proxy/transform/formats/parser.py`: registry and detection. -/

/-- One registered format parser: detection predicate, decoder and encoder
(exceptions modelled as `Except.error`). -/
structure FormatHandler where
  can_parse : String → List (String × String) → Json → Bool
  from_format : Json → Except String InternalChatRequest
  to_format : InternalChatRequest → Except String Json

/-- Registered `openai_chat` parser. -/
def openai_chat_handler : FormatHandler :=
  ⟨can_parse_openai_chat, from_openai_chat, to_openai_chat⟩

/-- Registered `openai_codex` parser. -/
def openai_codex_handler : FormatHandler :=
  ⟨can_parse_openai_codex, from_openai_codex, fun r => .ok (to_openai_codex r)⟩

/-- Modelled from the spec: the `claude_chat` module is not under `src/`;
its detection follows the spec's table (path ends with `/messages`, an
`anthropic-version` header, a `messages` body), and its converters are
unspecified here. -/
def can_parse_claude_chat_spec (path : String) (headers : List (String × String))
    (body : Json) : Bool :=
  (path.data.reverse.take 9 = "/messages".data.reverse) &&
  (assoc_get headers "anthropic-version").isSome && body.hasKey "messages"

/-- Modelled from the spec: the `claude_code` module is not under `src/`
and the spec does not describe it; as a Claude-dialect variant it is
modelled as requiring a `messages` body and the anthropic header. -/
def can_parse_claude_code_spec (path : String) (headers : List (String × String))
    (body : Json) : Bool :=
  body.hasKey "messages" && (assoc_get headers "anthropic-version").isSome

/-- Spec-modelled `claude_chat` registry entry (converters unavailable in
`src/`). -/
def claude_chat_spec_handler : FormatHandler :=
  ⟨can_parse_claude_chat_spec,
   fun _ => .error "claude_chat module not in src",
   fun _ => .error "claude_chat module not in src"⟩

/-- Spec-modelled `claude_code` registry entry. -/
def claude_code_spec_handler : FormatHandler :=
  ⟨can_parse_claude_code_spec,
   fun _ => .error "claude_code module not in src",
   fun _ => .error "claude_code module not in src"⟩

/-- The `PARSERS` registry: four entries, in source order.  The two
Claude entries are parameters because their modules are not in `src/`. -/
def format_handlers (claude_chat_h claude_code_h : FormatHandler) :
    List (String × FormatHandler) :=
  [("openai_chat", openai_chat_handler), ("claude_chat", claude_chat_h),
   ("claude_code", claude_code_h), ("openai_codex", openai_codex_handler)]

/-- Names registered in `PARSERS`. -/
def parser_registry_names : List String :=
  ["openai_chat", "claude_chat", "claude_code", "openai_codex"]

/-- The `config_from` argument of `detect_and_parse` after the
`"auto"` / `str` / `list` dispatch. -/
inductive ConfigFrom where
  | auto
  | one (name : String)
  | many (names : List String)
  | other
deriving Repr

/-- Candidate list of `detect_and_parse` (non-string entries of a list
never match a registry key and are dropped when building `ConfigFrom`). -/
def detect_candidates (cf : ConfigFrom) : List String :=
  match cf with
  | .auto => parser_registry_names
  | .one s => [s]
  | .many l => l
  | .other => parser_registry_names

/-- The `for name in candidates` loop of `detect_and_parse`: first
registered parser whose `can_parse` accepts and whose `from_format` does
not raise. -/
def detect_loop (handlers : List (String × FormatHandler)) (path : String)
    (headers : List (String × String)) (body : Json) :
    List String → Option (String × InternalChatRequest)
  | [] => none
  | name :: rest =>
    match assoc_get handlers name with
    | none => detect_loop handlers path headers body rest
    | some h =>
      if h.can_parse path headers body then
        match h.from_format body with
        | .ok internal => some (name, internal)
        | .error _ => detect_loop handlers path headers body rest
      else detect_loop handlers path headers body rest

/-- Python `str(list_of_names)`. -/
def py_str_list (l : List String) : String :=
  "[" ++ String.intercalate ", " (l.map (fun s => "'" ++ s ++ "'")) ++ "]"

/-- The `expected_str` rendering of the strict branch. -/
def expected_str_of (cf : ConfigFrom) : String :=
  match cf with
  | .one s => "'" ++ s ++ "'"
  | .auto => py_str_list parser_registry_names
  | .many l => py_str_list l
  | .other => py_str_list parser_registry_names

/-- `detect_and_parse`: returns `(format name, internal request, error)`. -/
def detect_and_parse (claude_chat_h claude_code_h : FormatHandler)
    (config_from : ConfigFrom) (path : String) (headers : List (String × String))
    (body : Json) (strict : Bool := false) :
    Option String × Option InternalChatRequest × Option String :=
  let handlers := format_handlers claude_chat_h claude_code_h
  let candidates := detect_candidates config_from
  match detect_loop handlers path headers body candidates with
  | some (name, internal) => (some name, some internal, none)
  | none =>
    if strict then
      let all_formats := parser_registry_names
      let excluded := all_formats.filter (fun f => !(candidates.contains f))
      let detectable := excluded.filter (fun name =>
        match assoc_get handlers name with
        | some h => h.can_parse path headers body
        | none => false)
      if ¬ detectable.isEmpty then
        (none, none, some ("Format mismatch: Request appears to be in format [" ++
          String.intercalate ", " (detectable.map (fun f => "'" ++ f ++ "'")) ++
          "], but only [" ++ expected_str_of config_from ++ "] is allowed. " ++
          "Please check your 'from' configuration or update it to include the detected format."))
      else
        (none, none, some ("Unable to parse request format. Expected format: " ++
          expected_str_of config_from ++
          ". Please verify your request body structure matches the expected format."))
    else (none, none, none)

/- ------------------------------------------------------------------
   `ai_proxy/proxy/router.py`: `process_request` and the moderation
   error envelope of `proxy_entry`. -/

/-- Python exceptions escaping `process_request`. -/
inductive PyError where
  | valueError (msg : String)
deriving Repr, DecidableEq

/-- Python tuple unpacking `a, b = t` applied to a 3-tuple: always raises
`ValueError: too many values to unpack (expected 2)`. -/
def unpack2_of_3 {α β γ : Type} (t : α × β × γ) : Except PyError (α × β) :=
  .error (.valueError "too many values to unpack (expected 2)")

/-- `transform_cfg.get("to", src_format)` (a non-string target never
matches a registry key). -/
def transform_target (transform_cfg : Json) (src_format : String) : String :=
  match transform_cfg.get? "to" with
  | some (.str t) => t
  | some _ => ""
  | none => src_format

/-- The format-conversion tail of `process_request` (source lines 99-119):
same target → body unchanged; unregistered target → warn and keep the
source body; encoder success → transformed body; encoder exception →
rejection with `Format transform error: ...`. -/
def transform_stage (handlers : List (String × FormatHandler)) (transform_cfg : Json)
    (src_format : String) (internal_req : InternalChatRequest) (body : Json) :
    Bool × Option String × Option Json × Option String :=
  let target := transform_target transform_cfg src_format
  if target = src_format then (true, none, some body, some src_format)
  else
    match assoc_get handlers target with
    | none => (true, none, some body, some src_format)
    | some h =>
      match h.to_format internal_req with
      | .ok tb => (true, none, some tb, some src_format)
      | .error e => (false, some ("Format transform error: " ++ e), none, some src_format)

/-- `transform_cfg.get("from", "auto")` dispatched as in
`detect_and_parse`. -/
def config_from_of (transform_cfg : Json) : ConfigFrom :=
  match transform_cfg.get? "from" with
  | none => .auto
  | some (.str s) => if s = "auto" then .auto else .one s
  | some (.arr l) => .many (l.filterMap (fun j =>
      match j with
      | .str s => some s
      | _ => none))
  | some _ => .other

/-- Default used where the source would dereference an impossible `None`
internal request. -/
def default_internal_request : InternalChatRequest :=
  ⟨[], "", false, [], .null, []⟩

/-- `extract_text_from_internal`: newline-joined non-empty text blocks of
`user` and `assistant` messages. -/
def extract_text_from_internal (req : InternalChatRequest) : String :=
  join_nl ((req.messages.filter (fun m => m.role = "user" || m.role = "assistant")).map
    (fun m => (m.content.filter (fun b => b.type = "text" && b.text ≠ "")).map
      (fun b => b.text))).flatten

/-- `_extract_from_openai_chat` (used by the transform-disabled branch). -/
def extract_from_openai_chat_body (body : Json) : String :=
  let messages := match body.get? "messages" with
    | some (.arr ms) => ms
    | _ => []
  join_nl (messages.filterMap (fun msg =>
    match msg.get? "role" with
    | some (.str "tool") => none
    | _ =>
      match msg.get? "content" with
      | some (.str s) => some [s]
      | some (.arr parts) => some (parts.filterMap (fun p =>
          match p with
          | .obj _ =>
            match p.get? "type" with
            | some (.str "text") =>
              some (match p.get? "text" with
                | some (.str t) => t
                | _ => "")
            | _ => none
          | _ => none))
      | _ => none)).flatten

/-- `process_request` (`router.py`): the two moderation stages are the
embedded moderation functions, passed as their outcome for the given text
and config dict (their own state threading is established separately);
exceptions escape as `Except.error`. -/
def process_request (claude_chat_h claude_code_h : FormatHandler)
    (basic_mod : String → Json → Bool × Option String)
    (smart_mod : String → Json → Bool × Option ModerationResult)
    (config : Json) (body : Json) (path : String)
    (headers : List (String × String)) :
    Except PyError (Bool × Option String × Option Json × Option String) := do
  let transform_cfg := config.getD "format_transform" (.obj [])
  let transform_enabled := (transform_cfg.getD "enabled" (.bool false)).truthy
  if ¬ transform_enabled then
    let text := extract_from_openai_chat_body body
    let basic_cfg := config.getD "basic_moderation" (.obj [])
    let basic_out :=
      if (basic_cfg.getD "enabled" .null).truthy then basic_mod text basic_cfg
      else (true, none)
    if ¬ basic_out.1 then return (false, basic_out.2, none, none)
    let smart_cfg := config.getD "smart_moderation" (.obj [])
    let smart_out :=
      if (smart_cfg.getD "enabled" .null).truthy then smart_mod text smart_cfg
      else (true, none)
    if ¬ smart_out.1 then
      return (false,
        some ("Smart moderation: " ++
          (match smart_out.2 with
           | some r => r.reason.getD "None"
           | none => "None")), none, none)
    return (true, none, some body, none)
  else do
    let config_from := config_from_of transform_cfg
    let triple := detect_and_parse claude_chat_h claude_code_h config_from path headers body
    let pair ← unpack2_of_3 triple
    let src_format := pair.1
    let internal_opt := pair.2
    match src_format with
    | none => return (true, none, some body, none)
    | some sf =>
      let internal_req := internal_opt.getD default_internal_request
      let text := extract_text_from_internal internal_req
      let basic_cfg := config.getD "basic_moderation" (.obj [])
      let basic_out :=
        if (basic_cfg.getD "enabled" .null).truthy then basic_mod text basic_cfg
        else (true, none)
      if ¬ basic_out.1 then return (false, basic_out.2, none, some sf)
      let smart_cfg := config.getD "smart_moderation" (.obj [])
      let smart_out :=
        if (smart_cfg.getD "enabled" .null).truthy then smart_mod text smart_cfg
        else (true, none)
      if ¬ smart_out.1 then
        return (false,
          some ("Smart moderation: " ++
            (match smart_out.2 with
             | some r => r.reason.getD "None"
             | none => "None")), none, some sf)
      return transform_stage (format_handlers claude_chat_h claude_code_h)
        transform_cfg sf internal_req body

/-- The 400 `MODERATION_BLOCKED` envelope `proxy_entry` returns when
`process_request` reports a failure. -/
def moderation_blocked_response (error_msg : Option String)
    (src_format : Option String) : Nat × Json :=
  (400, .obj [("error", .obj
    [("code", .str "MODERATION_BLOCKED"),
     ("message", opt_str_json error_msg),
     ("type", .str "moderation_error"),
     ("source_format", opt_str_json src_format)])])

/-- C4: `detect_and_parse` returns a 3-tuple but `process_request` binds it
to two names, so for every request config with `format_transform.enabled`
truthy, `process_request` raises `ValueError` before moderation or
forwarding — it never returns normally, and no format-transformed request
is ever forwarded upstream. -/
theorem claim_C4_transform_unpacking_raises (claude_chat_h claude_code_h : FormatHandler)
    (basic_mod : String → Json → Bool × Option String)
    (smart_mod : String → Json → Bool × Option ModerationResult)
    (config body : Json) (path : String) (headers : List (String × String))
    (hen : ((config.getD "format_transform" (.obj [])).getD "enabled"
      (.bool false)).truthy = true) :
    process_request claude_chat_h claude_code_h basic_mod smart_mod config body path
      headers = .error (.valueError "too many values to unpack (expected 2)") := by
  simp [process_request, hen, unpack2_of_3, Bind.bind, Except.bind]

/-- Witness for C4 at a concrete transform-enabled config. -/
theorem claim_C4_transform_unpacking_raises_witness :
    process_request claude_chat_spec_handler claude_code_spec_handler
      (fun _ _ => (true, none)) (fun _ _ => (true, none))
      (.obj [("format_transform", .obj [("enabled", .bool true)])])
      (.obj []) "/v1/chat/completions" [] =
      .error (.valueError "too many values to unpack (expected 2)") :=
  claim_C4_transform_unpacking_raises claude_chat_spec_handler claude_code_spec_handler
    (fun _ _ => (true, none)) (fun _ _ => (true, none))
    (.obj [("format_transform", .obj [("enabled", .bool true)])])
    (.obj []) "/v1/chat/completions" [] rfl

/- ------------------------------------------------------------------
   C6: dialect detection. -/

theorem detect_loop_name_registered (handlers : List (String × FormatHandler))
    (path : String) (headers : List (String × String)) (body : Json)
    (l : List String) (name : String) (internal : InternalChatRequest)
    (h : detect_loop handlers path headers body l = some (name, internal)) :
    (assoc_get handlers name).isSome := by
  induction l with
  | nil => simp [detect_loop] at h
  | cons hd t ih =>
    unfold detect_loop at h
    cases hget : assoc_get handlers hd with
    | none =>
      simp only [hget] at h
      exact ih h
    | some hh =>
      simp only [hget] at h
      by_cases hc : hh.can_parse path headers body = true
      · simp only [hc, if_true] at h
        cases hfrom : hh.from_format body with
        | ok internal2 =>
          simp only [hfrom, Option.some.injEq, Prod.mk.injEq] at h
          obtain ⟨ha, hb⟩ := h
          subst ha
          simp [hget]
        | error e =>
          simp only [hfrom] at h
          exact ih h
      · simp only [hc, Bool.false_eq_true, if_false] at h
        exact ih h

theorem assoc_get_format_handlers_none (a b : FormatHandler) (name : String)
    (h : ¬ name ∈ parser_registry_names) : assoc_get (format_handlers a b) name = none := by
  simp only [parser_registry_names, List.mem_cons, List.not_mem_nil, or_false,
    not_or] at h
  obtain ⟨h1, h2, h3, h4⟩ := h
  have g1 : ¬ ("openai_chat" = name) := fun hh => h1 hh.symm
  have g2 : ¬ ("claude_chat" = name) := fun hh => h2 hh.symm
  have g3 : ¬ ("claude_code" = name) := fun hh => h3 hh.symm
  have g4 : ¬ ("openai_codex" = name) := fun hh => h4 hh.symm
  simp [format_handlers, assoc_get, List.find?, g1, g2, g3, g4]

/-- C6 counterexample: the Gemini-shaped request of the spec's detection
table (path `:generateContent`, `contents[*].parts[*]` body) is accepted by
`can_parse_gemini_chat`, but auto-detection does not classify it as
`gemini_chat` — the gemini parser is not in `PARSERS`, so the request is
reported unknown. -/
theorem claim_C6_gemini_unregistered_counterexample :
    can_parse_gemini_chat "/v1beta/models/gemini-2.5-flash:generateContent" []
      (.obj [("contents", .arr [.obj [("role", .str "user"),
        ("parts", .arr [.obj [("text", .str "hi")]])]]),
        ("generationConfig", .obj [])]) = true ∧
    detect_and_parse claude_chat_spec_handler claude_code_spec_handler .auto
      "/v1beta/models/gemini-2.5-flash:generateContent" []
      (.obj [("contents", .arr [.obj [("role", .str "user"),
        ("parts", .arr [.obj [("text", .str "hi")]])]]),
        ("generationConfig", .obj [])]) false = (none, none, none) :=
  ⟨rfl, rfl⟩

/-- C6 (amended): detection classifies every request into exactly one of
the four *registered* dialects — `openai_chat`, `claude_chat`,
`claude_code`, `openai_codex` — or reports unknown; `gemini_chat` and
`openai_responses` are never returned because their parsers are not
registered, even though `can_parse_gemini_chat` exists in the source.  An
OpenAI-Chat request is classified `openai_chat`. -/
theorem claim_C6_detection_registered_only :
    (∀ (claude_chat_h claude_code_h : FormatHandler) (cf : ConfigFrom) (path : String)
      (headers : List (String × String)) (body : Json) (strict : Bool) (name : String),
      (detect_and_parse claude_chat_h claude_code_h cf path headers body strict).1 =
        some name →
      name ∈ parser_registry_names) ∧
    (detect_and_parse claude_chat_spec_handler claude_code_spec_handler .auto
      "/v1/chat/completions" []
      (.obj [("model", .str "gpt-x"), ("messages", .arr [.obj [("role", .str "user"),
        ("content", .str "ping")]])]) false).1 = some "openai_chat" := by
  constructor
  · intro ch cch cf path headers body strict name h
    simp only [detect_and_parse] at h
    cases hloop : detect_loop (format_handlers ch cch) path headers body
        (detect_candidates cf) with
    | some pair =>
      simp only [hloop] at h
      obtain ⟨n2, i2⟩ := pair
      simp only [Option.some.injEq] at h
      subst h
      by_contra hmem
      have := detect_loop_name_registered _ path headers body _ n2 i2 hloop
      rw [assoc_get_format_handlers_none ch cch n2 hmem] at this
      simp at this
    | none =>
      simp only [hloop] at h
      by_cases hs : strict = true
      · subst hs
        simp only [if_true] at h
        split at h <;> simp at h
      · rw [Bool.not_eq_true] at hs
        subst hs
        simp at h
  · rfl

/-- Witness for C6 (amended): the successful OpenAI-Chat classification is
in the registered set. -/
theorem claim_C6_detection_registered_only_witness :
    "openai_chat" ∈ parser_registry_names :=
  claim_C6_detection_registered_only.1 claude_chat_spec_handler claude_code_spec_handler
    .auto "/v1/chat/completions" []
    (.obj [("model", .str "gpt-x"), ("messages", .arr [.obj [("role", .str "user"),
      ("content", .str "ping")]])]) false "openai_chat"
    claim_C6_detection_registered_only.2

/- ------------------------------------------------------------------
   C8: encoder-failure handling. -/

/-- Spec-modelled claude entry whose encoder raises (the module is not in
`src/`, so its encoder is an arbitrary instantiation). -/
def c8_failing_claude_handler : FormatHandler :=
  ⟨can_parse_claude_chat_spec,
   fun _ => .error "claude_chat module not in src",
   fun _ => .error "boom"⟩

/-- C8 counterexample: when the configured target's encoder raises, the
request is rejected (`passed = false`, message `Format transform
error: ...`) and `proxy_entry` returns a 400 `MODERATION_BLOCKED` error
envelope — the source body is not forwarded. -/
theorem claim_C8_encoder_failure_counterexample :
    transform_stage (format_handlers c8_failing_claude_handler claude_code_spec_handler)
      (.obj [("enabled", .bool true), ("to", .str "claude_chat")]) "openai_chat"
      default_internal_request (.obj []) =
      (false, some "Format transform error: boom", none, some "openai_chat") ∧
    moderation_blocked_response (some "Format transform error: boom")
      (some "openai_chat") =
      (400, .obj [("error", .obj
        [("code", .str "MODERATION_BLOCKED"),
         ("message", .str "Format transform error: boom"),
         ("type", .str "moderation_error"),
         ("source_format", .str "openai_chat")])]) :=
  ⟨rfl, rfl⟩

/-- C8 (amended): in the conversion stage, an encoder exception for a
registered target dialect causes a rejection whose message is
`Format transform error: ...` (surfaced by `proxy_entry` as a 400
`MODERATION_BLOCKED` envelope), not a pass-through; the source body is
forwarded unchanged (with only a warning log) exactly when the configured
target has no registered parser.  (The stage itself is unreachable in the
current source because of the C4 unpacking bug.) -/
theorem claim_C8_encoder_failure_rejects (handlers : List (String × FormatHandler))
    (transform_cfg : Json) (sf : String) (ir : InternalChatRequest) (body : Json) :
    (∀ h e, transform_target transform_cfg sf ≠ sf →
      assoc_get handlers (transform_target transform_cfg sf) = some h →
      h.to_format ir = .error e →
      transform_stage handlers transform_cfg sf ir body =
        (false, some ("Format transform error: " ++ e), none, some sf) ∧
      (moderation_blocked_response (some ("Format transform error: " ++ e))
        (some sf)).1 = 400) ∧
    (transform_target transform_cfg sf ≠ sf →
      assoc_get handlers (transform_target transform_cfg sf) = none →
      transform_stage handlers transform_cfg sf ir body =
        (true, none, some body, some sf)) := by
  constructor
  · intro h e hne hget herr
    refine ⟨?_, rfl⟩
    unfold transform_stage
    rw [if_neg hne, hget]
    simp [herr]
  · intro hne hget
    unfold transform_stage
    rw [if_neg hne, hget]

/-- Witness for C8 (amended) at the concrete failing target. -/
theorem claim_C8_encoder_failure_rejects_witness :
    transform_stage (format_handlers c8_failing_claude_handler claude_code_spec_handler)
      (.obj [("enabled", .bool true), ("to", .str "claude_chat")]) "openai_chat"
      default_internal_request (.obj []) =
      (false, some ("Format transform error: " ++ "boom"), none, some "openai_chat") ∧
    (moderation_blocked_response (some ("Format transform error: " ++ "boom"))
      (some "openai_chat")).1 = 400 :=
  (claim_C8_encoder_failure_rejects
    (format_handlers c8_failing_claude_handler claude_code_spec_handler)
    (.obj [("enabled", .bool true), ("to", .str "claude_chat")]) "openai_chat"
    default_internal_request (.obj [])).1 c8_failing_claude_handler "boom"
    (by decide) rfl rfl

/- ------------------------------------------------------------------
   `ai_proxy/proxy/stream_transformer.py`: OpenAI-Chat decoding and the
   Gemini sink, at the SSE-frame level (byte framing is handled by
   `SSEBufferTransformer`; frames are modelled as their parsed payloads,
   output frames as the JSON payloads passed to `_encode_json`). -/

/-- One upstream SSE frame: a JSON data payload or the terminal
`data: [DONE]` marker. -/
inductive SSEIn where
  | json (payload : Json)
  | done_marker
deriving Repr

/-- One emitted SSE frame. -/
inductive SSEOut where
  | json (payload : Json)
  | done_mark
deriving Repr

/-- Internal stream events produced by `_decode_to_internal`. -/
inductive InternalEvent where
  | start (meta : List (String × Json))
  | text_delta (text : String)
  | tool_call_start (id name : String)
  | tool_call_args_delta (id name delta : String)
  | final (finish_reason : Json) (usage : Json)
  | done
deriving Repr

/-- Per-connection decoder state: the `meta` dict and the
`seen_tool_calls` map (its `__started__` marker kept as a flag). -/
structure DecodeSt where
  meta : List (String × Json)
  started : Bool
  seen : List (String × String)
deriving Repr

/-- Python `x or y` for a JSON value with a JSON fallback. -/
def json_or (j d : Json) : Json :=
  if j.truthy then j else d

/-- Python `x or ""` reading a string out of a JSON value (the sources
apply it to string-typed fields). -/
def str_or_empty (j : Json) : String :=
  match j with
  | .str s => s
  | _ => ""

/-- The `or`-chain `meta.get(k) or current or default` of the sinks. -/
def or_str (j : Json) (fallback : Option String) (d : String) : String :=
  match j with
  | .str s =>
    if s = "" then
      match fallback with
      | some f => if f = "" then d else f
      | none => d
    else s
  | _ =>
    match fallback with
    | some f => if f = "" then d else f
    | none => d

/-- One `delta.tool_calls` entry of the `openai_chat` branch of
`_decode_to_internal`. -/
def decode_openai_tool_call (tc : Json)
    (acc : List InternalEvent × List (String × String)) :
    List InternalEvent × List (String × String) :=
  let call_id := str_or_empty (tc.getD "id" .null)
  let fn := json_or (tc.getD "function" .null) (.obj [])
  let name := str_or_empty (fn.getD "name" .null)
  let args := str_or_empty (fn.getD "arguments" .null)
  let (acc, seen) :=
    if call_id ≠ "" && !(assoc_get acc.2 call_id).isSome then
      (acc.1 ++ [.tool_call_start call_id name], assoc_set acc.2 call_id name)
    else (acc.1, acc.2)
  if args ≠ "" then (acc ++ [.tool_call_args_delta call_id name args], seen)
  else (acc, seen)

/-- The `openai_chat` branch of `_decode_to_internal` (`now` models
`int(time.time())`). -/
def decode_to_internal_openai_chat (now : Int) (event : Json) (st : DecodeSt) :
    List InternalEvent × DecodeSt :=
  match event.getD "choices" .null with
  | .null => ([], st)
  | choices_val =>
    let meta := al_set st.meta "id" (event.getD "id" ((al_get st.meta "id").getD .null))
    let meta := al_set meta "model" (event.getD "model" ((al_get meta "model").getD .null))
    let meta := al_set meta "created"
      (json_or (event.getD "created" ((al_get meta "created").getD .null)) (.num now))
    let (start_events, started) :=
      if ¬ meta.isEmpty && ¬ st.started then ([InternalEvent.start meta], true)
      else ([], st.started)
    let choice :=
      match choices_val with
      | .arr (c :: _) => c
      | _ => Json.obj []
    let delta := json_or (choice.getD "delta" .null) (.obj [])
    let content := delta.getD "content" .null
    let text_events :=
      match content with
      | .str s => if s ≠ "" then [InternalEvent.text_delta s] else []
      | _ => []
    let (tool_events, seen) :=
      match delta.getD "tool_calls" .null with
      | .arr tcs => tcs.foldl (fun acc tc => decode_openai_tool_call tc acc) ([], st.seen)
      | _ => ([], st.seen)
    let finish_reason := choice.getD "finish_reason" .null
    let final_events :=
      if finish_reason.truthy then
        [InternalEvent.final finish_reason (event.getD "usage" .null), InternalEvent.done]
      else []
    (start_events ++ text_events ++ tool_events ++ final_events,
     { meta := meta, started := started, seen := seen })

/-- State of `_GeminiSink`. -/
structure GeminiSinkSt where
  response_id : Option String
  model : Option String
  tool_args_buffers : List (String × String)
  tool_names : List (String × String)
deriving Repr

/-- `dict.setdefault(k, v)`. -/
def assoc_setdefault (l : List (String × String)) (k v : String) :
    List (String × String) :=
  if (assoc_get l k).isSome then l else l ++ [(k, v)]

/-- `_safe_json_loads` on a string buffer. -/
def safe_json_loads_str (s : String) : Json :=
  (json_loads s).getD (.obj [])

/-- `_GeminiSink.on_start`. -/
def gemini_sink_on_start (meta : List (String × Json)) (s : GeminiSinkSt) :
    List SSEOut × GeminiSinkSt :=
  let rid := or_str ((al_get meta "id").getD .null) s.response_id "gemini-stream"
  let mdl := or_str ((al_get meta "model").getD .null) s.model "gemini"
  ([], { s with response_id := some rid, model := some mdl })

/-- `_GeminiSink.on_text_delta`. -/
def gemini_sink_on_text_delta (text : String) (s : GeminiSinkSt) :
    List SSEOut × GeminiSinkSt :=
  if text = "" then ([], s)
  else
    ([.json (.obj [("candidates", .arr [.obj
        [("content", .obj [("parts", .arr [.obj [("text", .str text)]]),
                           ("role", .str "model")]),
         ("index", .num 0)]]),
      ("responseId", opt_str_json s.response_id),
      ("modelVersion", opt_str_json s.model)])], s)

/-- `_GeminiSink.on_tool_call_start`. -/
def gemini_sink_on_tool_call_start (call_id name : String) (s : GeminiSinkSt) :
    List SSEOut × GeminiSinkSt :=
  if call_id = "" then ([], s)
  else
    ([], { s with tool_args_buffers := assoc_setdefault s.tool_args_buffers call_id "",
                  tool_names := assoc_set s.tool_names call_id name })

/-- `_GeminiSink.on_tool_call_args_delta`: buffer the fragment per call id
and emit one `functionCall` frame as soon as the stripped buffer parses as
a non-empty JSON object (the buffer is then cleared); fragments with an
empty call id are dropped. -/
def gemini_sink_on_tool_call_args_delta (call_id name delta : String)
    (s : GeminiSinkSt) : List SSEOut × GeminiSinkSt :=
  if call_id = "" then ([], s)
  else
    let buffers := assoc_set s.tool_args_buffers call_id
      ((assoc_get s.tool_args_buffers call_id).getD "" ++ delta)
    let names := assoc_set s.tool_names call_id
      (if name = "" then (assoc_get s.tool_names call_id).getD "" else name)
    let buf := strip_str ((assoc_get buffers call_id).getD "")
    match safe_json_loads_str buf with
    | .obj (f :: fs) =>
      let args_obj := Json.obj (f :: fs)
      let out_name :=
        let got := (assoc_get names call_id).getD name
        if got = "" then "" else got
      ([.json (.obj [("candidates", .arr [.obj
          [("content", .obj
            [("parts", .arr [.obj [("functionCall", .obj
              [("id", .str call_id), ("name", .str out_name), ("args", args_obj)])]]),
             ("role", .str "model")]),
           ("index", .num 0)]]),
        ("responseId", opt_str_json s.response_id),
        ("modelVersion", opt_str_json s.model)])],
       { s with tool_args_buffers := assoc_set buffers call_id "", tool_names := names })
    | _ => ([], { s with tool_args_buffers := buffers, tool_names := names })

/-- `_GeminiSink.flush`: re-feed each parseable stripped leftover buffer
through `on_tool_call_args_delta`. -/
def gemini_sink_flush (s : GeminiSinkSt) : List SSEOut × GeminiSinkSt :=
  s.tool_args_buffers.foldl (fun (acc : List SSEOut × GeminiSinkSt) p =>
    let b := strip_str p.2
    if b = "" then acc
    else
      match safe_json_loads_str b with
      | .obj (_ :: _) =>
        let r := gemini_sink_on_tool_call_args_delta p.1
          ((assoc_get acc.2.tool_names p.1).getD "") b acc.2
        (acc.1 ++ r.1, r.2)
      | _ => acc) ([], s)

/-- `_GeminiSink.on_done`. -/
def gemini_sink_on_done (s : GeminiSinkSt) : List SSEOut × GeminiSinkSt :=
  ([.done_mark], s)

/-- State of the `_StreamTranscoder` for the OpenAI-Chat → Gemini pair. -/
structure TranscoderSt where
  decode : DecodeSt
  transcoder_started : Bool
  sink : GeminiSinkSt
deriving Repr

/-- Fresh transcoder state. -/
def initial_transcoder_st : TranscoderSt :=
  ⟨⟨[], false, []⟩, false, ⟨none, none, [], []⟩⟩

/-- Dispatch of one internal event to the Gemini sink
(`_StreamTranscoder.handle_event` loop body; `_GeminiSink` inherits the
no-op `on_final`). -/
def transcoder_dispatch (meta : List (String × Json)) (ev : InternalEvent)
    (acc : List SSEOut × Bool × GeminiSinkSt) : List SSEOut × Bool × GeminiSinkSt :=
  let (outs, started, sink) := acc
  match ev with
  | .start m =>
    let r := gemini_sink_on_start m sink
    (outs ++ r.1, true, r.2)
  | .text_delta t =>
    let (outs, started, sink) :=
      if ¬ started then
        let r := gemini_sink_on_start meta sink
        (outs ++ r.1, true, r.2)
      else (outs, started, sink)
    let r := gemini_sink_on_text_delta t sink
    (outs ++ r.1, started, r.2)
  | .tool_call_start id name =>
    let (outs, started, sink) :=
      if ¬ started then
        let r := gemini_sink_on_start meta sink
        (outs ++ r.1, true, r.2)
      else (outs, started, sink)
    let r := gemini_sink_on_tool_call_start id name sink
    (outs ++ r.1, started, r.2)
  | .tool_call_args_delta id name delta =>
    let (outs, started, sink) :=
      if ¬ started then
        let r := gemini_sink_on_start meta sink
        (outs ++ r.1, true, r.2)
      else (outs, started, sink)
    let r := gemini_sink_on_tool_call_args_delta id name delta sink
    (outs ++ r.1, started, r.2)
  | .final _ _ =>
    let (outs, started, sink) :=
      if ¬ started then
        let r := gemini_sink_on_start meta sink
        (outs ++ r.1, true, r.2)
      else (outs, started, sink)
    (outs, started, sink)
  | .done =>
    let r := gemini_sink_on_done sink
    (outs ++ r.1, started, r.2)

/-- One SSE frame through the OpenAI-Chat → Gemini transcoder. -/
def transcode_frame (now : Int) (fr : SSEIn) (st : TranscoderSt) :
    List SSEOut × TranscoderSt :=
  match fr with
  | .done_marker =>
    let r := gemini_sink_on_done st.sink
    (r.1, { st with sink := r.2 })
  | .json payload =>
    let (events, decode2) := decode_to_internal_openai_chat now payload st.decode
    let (outs, started2, sink2) := events.foldl
      (fun acc ev => transcoder_dispatch decode2.meta ev acc)
      ([], st.transcoder_started, st.sink)
    (outs, ⟨decode2, started2, sink2⟩)

/-- Full OpenAI-Chat → Gemini transcoding of a frame list (feed each frame,
then flush, as the streaming driver does at end of stream). -/
def transcode_openai_to_gemini (now : Int) (frames : List SSEIn) : List SSEOut :=
  let r := frames.foldl (fun (acc : List SSEOut × TranscoderSt) fr =>
    let o := transcode_frame now fr acc.2
    (acc.1 ++ o.1, o.2)) ([], initial_transcoder_st)
  let f := gemini_sink_flush r.2.sink
  r.1 ++ f.1

/-- Does an emitted Gemini frame carry a `functionCall` part? -/
def out_has_function_call : SSEOut → Bool
  | .done_mark => false
  | .json p =>
    match p.get? "candidates" with
    | some (.arr cs) => cs.any (fun c =>
        match c.get? "content" with
        | some ct =>
          match ct.get? "parts" with
          | some (.arr ps) => ps.any (fun part => part.hasKey "functionCall")
          | _ => false
        | _ => false)
    | _ => false

/-- First upstream tool-call chunk of the scenario (id `c1`, name `f`,
arguments fragment `{"x":`). -/
def c2_tc1 : Json :=
  Json.obj [("id", .str "c1"),
    ("function", Json.obj [("name", .str "f"), ("arguments", .str "\x7b\"x\":")])]

/-- Second tool-call chunk: arguments fragment `1}`, with or without the
call id. -/
def c2_tc2 (with_id : Bool) : Json :=
  Json.obj ((if with_id then [("id", Json.str "c1")] else []) ++
    [("function", Json.obj [("arguments", Json.str "1\x7d")])])

/-- First scenario frame. -/
def c2_chunk1 : Json :=
  Json.obj [("choices", Json.arr [Json.obj
    [("delta", Json.obj [("tool_calls", Json.arr [c2_tc1])])]])]

/-- Second scenario frame. -/
def c2_chunk2 (with_id : Bool) : Json :=
  Json.obj [("choices", Json.arr [Json.obj
    [("delta", Json.obj [("tool_calls", Json.arr [c2_tc2 with_id])])]])]

/-- Third scenario frame (`finish_reason = "tool_calls"`). -/
def c2_chunk3 : Json :=
  Json.obj [("choices", Json.arr [Json.obj
    [("delta", Json.obj []), ("finish_reason", Json.str "tool_calls")]])]

/-- The scenario stream: the three chunks and the terminal `[DONE]`. -/
def c2_frames (with_id : Bool) : List SSEIn :=
  [.json c2_chunk1, .json (c2_chunk2 with_id), .json c2_chunk3, .done_marker]

/-- C2 counterexample: on the claimed stream — whose second chunk carries
the arguments fragment with *no* id — the OpenAI-Chat → Gemini transcoder
emits no `functionCall` frame at all (the fragment is attributed to the
empty call id and dropped by the Gemini sink), only the two `[DONE]`
terminators. -/
theorem claim_C2_missing_id_fragment_dropped :
    transcode_openai_to_gemini 123 (c2_frames false) =
      [SSEOut.done_mark, SSEOut.done_mark] ∧
    (transcode_openai_to_gemini 123 (c2_frames false)).all
      (fun o => !out_has_function_call o) = true :=
  ⟨rfl, rfl⟩

/-- Is a parsed value a non-empty JSON object? -/
def nonempty_obj (j : Json) : Bool :=
  match j with
  | .obj (_ :: _) => true
  | _ => false

/-- Arguments of the first functionCall part of an emitted frame. -/
def first_function_call_args : SSEOut → Option Json
  | .done_mark => none
  | .json p =>
    match p.get? "candidates" with
    | some (.arr (c :: _)) =>
      match c.get? "content" with
      | some ct =>
        match ct.get? "parts" with
        | some (.arr (part :: _)) =>
          match part.get? "functionCall" with
          | some fc => fc.get? "args"
          | none => none
        | _ => none
      | _ => none
    | _ => none


theorem assoc_get_set_self {κ α : Type} [DecidableEq κ] (l : List (κ × α)) (k : κ)
    (v : α) : assoc_get (assoc_set l k v) k = some v := by
  induction l with
  | nil => simp [assoc_set, assoc_get, List.find?]
  | cons p rest ih =>
    by_cases h : p.1 = k
    · simp [assoc_set, h, assoc_get, List.find?]
    · simpa [assoc_set, h, assoc_get, List.find?] using ih

/-- C2 (amended): when every fragment carries the tool-call id, the
transcoder reconstructs the arguments.  Concretely, the scenario stream
with id `c1` on both chunks yields exactly one Gemini frame whose
`functionCall` is `(id c1, name f, args (x 1))`, followed by the two
`[DONE]` terminators (one from `finish_reason`, one from the upstream
marker).  In general, for any non-empty call id the Gemini sink buffers
argument fragments per id: if the buffer extended by the first fragment
does not yet parse to a non-empty JSON object but after the second
fragment it does, the first delta emits nothing, the second emits exactly
one frame, its `functionCall.args` is exactly the parsed object, and the
id's buffer is cleared.  (Fragments arriving in chunks with a missing or
empty id are dropped, which is why the claimed stream — second chunk
id-less — produces no `functionCall` frame at all.) -/
theorem claim_C2_fragmented_args_reconstructed :
    (transcode_openai_to_gemini 123 (c2_frames true) =
      [SSEOut.json (Json.obj
        [("candidates", Json.arr [Json.obj
          [("content", Json.obj
            [("parts", Json.arr [Json.obj
              [("functionCall", Json.obj
                [("id", Json.str "c1"), ("name", Json.str "f"),
                 ("args", Json.obj [("x", Json.num 1)])])]]),
             ("role", Json.str "model")]),
           ("index", Json.num 0)]]),
         ("responseId", Json.str "gemini-stream"),
         ("modelVersion", Json.str "gemini")]),
       SSEOut.done_mark, SSEOut.done_mark]) ∧
    (∀ (s : GeminiSinkSt) (call_id name1 name2 d1 d2 : String) (f : String × Json)
      (fs : List (String × Json)),
      call_id ≠ "" →
      nonempty_obj (safe_json_loads_str (strip_str
        ((assoc_get s.tool_args_buffers call_id).getD "" ++ d1))) = false →
      safe_json_loads_str (strip_str
        ((assoc_get s.tool_args_buffers call_id).getD "" ++ d1 ++ d2)) =
          .obj (f :: fs) →
      (gemini_sink_on_tool_call_args_delta call_id name1 d1 s).1 = [] ∧
      (gemini_sink_on_tool_call_args_delta call_id name2 d2
        (gemini_sink_on_tool_call_args_delta call_id name1 d1 s).2).1.length = 1 ∧
      ((gemini_sink_on_tool_call_args_delta call_id name2 d2
        (gemini_sink_on_tool_call_args_delta call_id name1 d1 s).2).1.head?.bind
          first_function_call_args) = some (.obj (f :: fs)) ∧
      (assoc_get (gemini_sink_on_tool_call_args_delta call_id name2 d2
        (gemini_sink_on_tool_call_args_delta call_id name1 d1 s).2).2.tool_args_buffers
        call_id) = some "") := by
  constructor
  · rfl
  · intro s call_id name1 name2 d1 d2 f fs hid hfail hok
    have h1 : gemini_sink_on_tool_call_args_delta call_id name1 d1 s =
        ([], ⟨s.response_id, s.model,
          assoc_set s.tool_args_buffers call_id
            ((assoc_get s.tool_args_buffers call_id).getD "" ++ d1),
          assoc_set s.tool_names call_id
            (if name1 = "" then (assoc_get s.tool_names call_id).getD "" else name1)⟩) := by
      unfold gemini_sink_on_tool_call_args_delta
      rw [if_neg hid]
      simp only [assoc_get_set_self, Option.getD_some]
      cases hj : safe_json_loads_str (strip_str
          ((assoc_get s.tool_args_buffers call_id).getD "" ++ d1)) with
      | obj l =>
        cases l with
        | nil => rfl
        | cons g gs =>
          rw [hj] at hfail
          simp [nonempty_obj] at hfail
      | null => rfl
      | bool b => rfl
      | num n => rfl
      | str t => rfl
      | arr a => rfl
    rw [h1]
    dsimp only
    unfold gemini_sink_on_tool_call_args_delta
    rw [if_neg hid]
    simp only [assoc_get_set_self, Option.getD_some, hok]
    refine ⟨trivial, rfl, ?_, ?_⟩
    · simp [first_function_call_args, Json.get?, al_get, assoc_get, List.find?]
    · simp [assoc_get_set_self]

theorem claim_C2_fragmented_args_reconstructed_witness :
    ("c1" : String) ≠ "" ∧
    nonempty_obj (safe_json_loads_str (strip_str
      ((assoc_get ([] : List (String × String)) "c1").getD "" ++ "\x7b\"x\":"))) = false ∧
    safe_json_loads_str (strip_str
      ((assoc_get ([] : List (String × String)) "c1").getD "" ++ "\x7b\"x\":" ++ "1\x7d")) =
        .obj [("x", Json.num 1)] ∧
    ((gemini_sink_on_tool_call_args_delta "c1" "" "1\x7d"
      (gemini_sink_on_tool_call_args_delta "c1" "f" "\x7b\"x\":"
        ⟨some "gemini-stream", some "gemini", [], []⟩).2).1.head?.bind
        first_function_call_args) = some (.obj [("x", Json.num 1)]) :=
  ⟨by decide, rfl, rfl,
    (claim_C2_fragmented_args_reconstructed.2
      ⟨some "gemini-stream", some "gemini", [], []⟩ "c1" "f" "" "\x7b\"x\":" "1\x7d"
      ("x", Json.num 1) [] (by decide) rfl rfl).2.2.1⟩

/- ------------------------------------------------------------------
   C3: dialect round trips. -/

/-- The C3 scenario body: a minimal OpenAI-Chat request with an explicit
model name. -/
def c3_body : Json :=
  Json.obj [("model", .str "m"),
    ("messages", Json.arr [Json.obj
      [("role", .str "user"), ("content", .str "hi")]])]

/-- The cross-dialect round trip openai_chat → gemini_chat → internal. -/
def c3_roundtrip : Except String InternalChatRequest :=
  (from_openai_chat c3_body).bind (fun r =>
    (to_gemini_chat r).bind (fun j => from_gemini_chat j))

/-- C3 counterexample: for the dialect pair (openai_chat, gemini_chat),
decoding the scenario body yields model "m", but Gemini bodies have no
model field — `to_gemini_chat` drops it — so decoding the encoded body
yields the hard-coded default model "gemini-2.5-flash": the round trip
does not preserve the Internal Chat Request. -/
theorem claim_C3_cross_dialect_counterexample :
    (from_openai_chat c3_body).toOption.map (fun r => r.model) = some "m" ∧
    c3_roundtrip.toOption.map (fun r => r.model) = some "gemini-2.5-flash" :=
  ⟨rfl, rfl⟩

/-- Canonical text block, as built by the decoders. -/
def text_block (t : String) : InternalContentBlock :=
  ⟨"text", t, none, none, none⟩

/-- Canonical tool-call block. -/
def tool_call_block (tc : InternalToolCall) : InternalContentBlock :=
  ⟨"tool_call", "", none, some tc, none⟩

/-- Canonical tool-result block. -/
def tool_result_block (tr : InternalToolResult) : InternalContentBlock :=
  ⟨"tool_result", "", none, none, some tr⟩

/-- Internal messages in the image of `from_openai_chat` whose tool-call
arguments re-parse to themselves (the JSON dump/parse closure that "up to
whitespace" presumes). -/
inductive WFOpenAIMsg : InternalMessage → Prop
  | text (role t : String) (hr : role ≠ "tool") (ht : t ≠ "") :
      WFOpenAIMsg ⟨role, [text_block t]⟩
  | calls (role : String) (tb : List InternalContentBlock)
      (tcs : List InternalToolCall) (hr : role ≠ "tool")
      (htb : tb = [] ∨ ∃ t, t ≠ "" ∧ tb = [text_block t])
      (hne : tcs ≠ [])
      (hargs : ∀ tc ∈ tcs, json_loads (json_dumps_py tc.arguments) =
        some tc.arguments) :
      WFOpenAIMsg ⟨role, tb ++ tcs.map tool_call_block⟩
  | tool (cid : String) (nm : Option String) (s : String) :
      WFOpenAIMsg ⟨"tool", (if s = "" then [] else [text_block s]) ++
        [tool_result_block ⟨cid, nm, .str s⟩]⟩

theorem join_nl_singleton (t : String) : join_nl [t] = t := rfl

theorem except_mapM_loop_ok {α β : Type} (f : α → Except String β) (g : α → β)
    (l : List α) (acc : List β) (h : ∀ x ∈ l, f x = .ok (g x)) :
    List.mapM.loop f l acc = Except.ok (acc.reverse ++ l.map g) := by
  induction l generalizing acc with
  | nil => simp [List.mapM.loop]; rfl
  | cons x xs ih =>
    have hx := h x (List.mem_cons_self x xs)
    have ih' := ih (g x :: acc) (fun y hy => h y (List.mem_cons_of_mem x hy))
    simp only [List.mapM.loop, hx, Except.bind, bind]
    rw [ih']
    simp

theorem except_mapM_ok {α β : Type} (f : α → Except String β) (g : α → β)
    (l : List α) (h : ∀ x ∈ l, f x = .ok (g x)) :
    l.mapM f = Except.ok (l.map g) := by
  have := except_mapM_loop_ok f g l [] h
  simpa [List.mapM] using this

theorem flatten_singletons {α : Type} (l : List α) :
    (l.map (fun x => [x])).flatten = l := by
  induction l with
  | nil => rfl
  | cons x xs ih => simp [ih]

theorem filterMap_id_map_some {α : Type} (l : List α) :
    (l.map (fun x => some x)).filterMap id = l := by
  induction l with
  | nil => rfl
  | cons x xs ih => simp [ih]

theorem assoc_set_append_of_not_mem {κ α : Type} [DecidableEq κ]
    (l : List (κ × α)) (k : κ) (v : α) (h : ∀ p ∈ l, p.1 ≠ k) :
    assoc_set l k v = l ++ [(k, v)] := by
  induction l with
  | nil => rfl
  | cons p rest ih =>
    have hp : p.1 ≠ k := h p (List.mem_cons_self p rest)
    simp only [assoc_set, if_neg hp, List.cons_append]
    rw [ih (fun q hq => h q (List.mem_cons_of_mem p hq))]

theorem foldl_al_set_append (extra : List (String × Json))
    (l : List (String × Json))
    (hnd : (extra.map Prod.fst).Nodup)
    (hdisj : ∀ p ∈ extra, ∀ q ∈ l, q.1 ≠ p.1) :
    extra.foldl (fun acc p => al_set acc p.1 p.2) l = l ++ extra := by
  induction extra generalizing l with
  | nil => simp
  | cons p rest ih =>
    have hset : al_set l p.1 p.2 = l ++ [p] := by
      have := assoc_set_append_of_not_mem l p.1 p.2
        (fun q hq => hdisj p (List.mem_cons_self p rest) q hq)
      simpa [al_set] using this
    have hnd' : (rest.map Prod.fst).Nodup := by
      simp only [List.map_cons, List.nodup_cons] at hnd
      exact hnd.2
    have hp_not : p.1 ∉ rest.map Prod.fst := by
      simp only [List.map_cons, List.nodup_cons] at hnd
      exact hnd.1
    have hdisj' : ∀ r ∈ rest, ∀ q ∈ l ++ [p], q.1 ≠ r.1 := by
      intro r hr q hq
      rcases List.mem_append.mp hq with hql | hqp
      · exact hdisj r (List.mem_cons_of_mem p hr) q hql
      · have : q = p := by simpa using hqp
        subst this
        intro hcontra
        exact hp_not (hcontra ▸ List.mem_map_of_mem Prod.fst hr)
    calc (p :: rest).foldl (fun acc q => al_set acc q.1 q.2) l
        = rest.foldl (fun acc q => al_set acc q.1 q.2) (al_set l p.1 p.2) := rfl
      _ = rest.foldl (fun acc q => al_set acc q.1 q.2) (l ++ [p]) := by rw [hset]
      _ = (l ++ [p]) ++ rest := ih (l ++ [p]) hnd' hdisj'
      _ = l ++ p :: rest := by simp

theorem assoc_get_eq_none_of_forall {κ α : Type} [DecidableEq κ]
    (l : List (κ × α)) (k : κ) (h : ∀ p ∈ l, p.1 ≠ k) :
    assoc_get l k = none := by
  unfold assoc_get
  rw [List.find?_eq_none.mpr]
  · rfl
  · intro p hp
    simp [h p hp]

theorem filter_extra_keep (extra : List (String × Json))
    (hkeys : ∀ p ∈ extra, p.1 ∉ openai_chat_reserved_keys) :
    extra.filter (fun p => !(openai_chat_reserved_keys.contains p.1)) = extra := by
  rw [List.filter_eq_self]
  intro p hp
  have h1 : p.1 ∉ openai_chat_reserved_keys := hkeys p hp
  simpa using h1

/-- The `tool_calls` entry emitted by `to_openai_chat` for one call. -/
def enc_openai_tc (tc : InternalToolCall) : Json :=
  Json.obj [("id", .str tc.id), ("type", .str "function"),
            ("function", .obj [("name", .str tc.name),
                               ("arguments", .str (json_dumps_py tc.arguments))])]

theorem mapM_extract_tool_calls (tcs : List InternalToolCall) :
    (tcs.map tool_call_block).mapM (fun b =>
      match b.tool_call with
      | some tc => Except.ok tc
      | none => Except.error "AttributeError: NoneType has no attribute id") =
      Except.ok tcs := by
  have h := except_mapM_ok (fun b =>
      match b.tool_call with
      | some tc => Except.ok tc
      | none => Except.error "AttributeError: NoneType has no attribute id")
    (fun b => (b.tool_call).getD ⟨"", "", .null⟩) (tcs.map tool_call_block) ?_
  · rw [h, List.map_map]
    have hfun : ((fun b : InternalContentBlock => (b.tool_call).getD ⟨"", "", .null⟩) ∘
        tool_call_block) = (fun tc : InternalToolCall => tc) :=
      funext (fun tc => rfl)
    rw [hfun, List.map_id']
  · intro x hx
    obtain ⟨tc, _, rfl⟩ := List.mem_map.mp hx
    simp [tool_call_block]

theorem parse_openai_tool_call_enc (tc : InternalToolCall)
    (h : json_loads (json_dumps_py tc.arguments) = some tc.arguments) :
    parse_openai_tool_call (enc_openai_tc tc) = .ok (tool_call_block tc) := by
  simp [parse_openai_tool_call, enc_openai_tc, Json.get?, Json.getD, al_get,
    assoc_get, List.find?, h, get_str_or, tool_call_block, Except.bind, bind]

theorem mapM_parse_tool_calls (tcs : List InternalToolCall)
    (hargs : ∀ tc ∈ tcs, json_loads (json_dumps_py tc.arguments) =
      some tc.arguments) :
    (tcs.map enc_openai_tc).mapM parse_openai_tool_call =
      Except.ok (tcs.map tool_call_block) := by
  have h := except_mapM_ok parse_openai_tool_call
    (fun j => match j with
      | .obj (("id", .str i) :: ("type", _) ::
          ("function", .obj (("name", .str n) :: ("arguments", .str a) :: _)) :: _) =>
        tool_call_block ⟨i, n, (json_loads a).getD (.obj [])⟩
      | _ => default) (tcs.map enc_openai_tc) ?_
  · rw [h]
    congr 1
    rw [List.map_map]
    apply List.map_congr_left
    intro tc htc
    simp [Function.comp, enc_openai_tc, hargs tc htc, tool_call_block]
  · intro x hx
    obtain ⟨tc, htc, rfl⟩ := List.mem_map.mp hx
    rw [parse_openai_tool_call_enc tc (hargs tc htc)]
    simp [enc_openai_tc, hargs tc htc, tool_call_block]

theorem parse_dump_tool (t : InternalTool) :
    parse_openai_tool_def (dump_openai_tool_def t) = .ok (some t) := by
  cases hd : t.description with
  | none =>
    simp [parse_openai_tool_def, dump_openai_tool_def, Json.get?, Json.getD,
      al_get, assoc_get, List.find?, get_opt_str, opt_str_json, hd,
      Except.bind, bind]
    rw [← hd]
  | some d =>
    simp [parse_openai_tool_def, dump_openai_tool_def, Json.get?, Json.getD,
      al_get, assoc_get, List.find?, get_opt_str, opt_str_json, hd,
      Except.bind, bind]
    rw [← hd]

theorem loop_extract_tool_calls (tcs : List InternalToolCall)
    (acc : List InternalToolCall) :
    List.mapM.loop (fun b =>
      match b.tool_call with
      | some tc => Except.ok tc
      | none => Except.error "AttributeError: NoneType has no attribute id")
      (tcs.map tool_call_block) acc = Except.ok (acc.reverse ++ tcs) := by
  induction tcs generalizing acc with
  | nil => simp [List.mapM.loop, pure, Except.pure]
  | cons tc rest ih =>
    simp only [List.map_cons, List.mapM.loop, tool_call_block, Except.bind, bind]
    rw [ih (tc :: acc)]
    simp

theorem loop_parse_tool_calls (tcs : List InternalToolCall)
    (hargs : ∀ tc ∈ tcs, json_loads (json_dumps_py tc.arguments) =
      some tc.arguments) (acc : List InternalContentBlock) :
    List.mapM.loop parse_openai_tool_call (tcs.map enc_openai_tc) acc =
      Except.ok (acc.reverse ++ tcs.map tool_call_block) := by
  induction tcs generalizing acc with
  | nil => simp [List.mapM.loop, pure, Except.pure]
  | cons tc rest ih =>
    have h0 := parse_openai_tool_call_enc tc (hargs tc (List.mem_cons_self tc rest))
    simp only [List.map_cons, List.mapM.loop, h0, Except.bind, bind]
    rw [ih (fun x hx => hargs x (List.mem_cons_of_mem tc hx)) (tool_call_block tc :: acc)]
    simp

theorem filter_text_map_tc (tcs : List InternalToolCall) :
    (tcs.map tool_call_block).filter (fun b => b.type = "text" && b.text ≠ "") = [] := by
  induction tcs with
  | nil => rfl
  | cons tc rest ih => simp [tool_call_block, ih]

theorem filter_tc_map_tc (tcs : List InternalToolCall) :
    (tcs.map tool_call_block).filter (fun b => b.type = "tool_call") =
      tcs.map tool_call_block := by
  induction tcs with
  | nil => rfl
  | cons tc rest ih => simp [tool_call_block, ih]

theorem filter_tr_map_tc (tcs : List InternalToolCall) :
    (tcs.map tool_call_block).filter (fun b => b.type = "tool_result") = [] := by
  induction tcs with
  | nil => rfl
  | cons tc rest ih => simp [tool_call_block, ih]

theorem filter_text_map_tc_n (tcs : List InternalToolCall) :
    (tcs.map tool_call_block).filter
      (fun b => decide (b.type = "text") && !decide (b.text = "")) = [] := by
  induction tcs with
  | nil => rfl
  | cons tc rest ih => simp [tool_call_block, ih]

theorem encode_parse_openai_roundtrip (m : InternalMessage) (h : WFOpenAIMsg m) :
    ∃ j, encode_openai_message m = .ok [j] ∧ parse_openai_message j = .ok m := by
  cases h with
  | text role t hr ht =>
    refine ⟨.obj [("role", .str role), ("content", .str t)], ?_, ?_⟩
    · simp [encode_openai_message, text_block, hr, ht, join_nl_singleton,
        Except.bind, bind, List.mapM, List.mapM.loop, pure, Except.pure]
    · simp [parse_openai_message, text_block, ht, hr, get_str_or, Json.get?,
        al_get, assoc_get, List.find?, Except.bind, bind, pure, Except.pure]
  | calls role tb tcs hr htb hne hargs =>
    obtain ⟨tc0, rest, rfl⟩ := List.exists_cons_of_ne_nil hne
    have h0 : json_loads (json_dumps_py tc0.arguments) = some tc0.arguments :=
      hargs tc0 (List.mem_cons_self tc0 rest)
    have hrest : ∀ tc ∈ rest, json_loads (json_dumps_py tc.arguments) =
        some tc.arguments :=
      fun tc htc => hargs tc (List.mem_cons_of_mem tc0 htc)
    have hp0 := parse_openai_tool_call_enc tc0 h0
    have hexl := loop_extract_tool_calls rest
    have hpl := loop_parse_tool_calls rest hrest
    rcases htb with rfl | ⟨t, ht, rfl⟩
    · refine ⟨.obj [("role", .str role),
        ("tool_calls", Json.arr ((tc0 :: rest).map enc_openai_tc))], ?_, ?_⟩
      · simp [encode_openai_message, filter_text_map_tc, filter_tc_map_tc,
          filter_tr_map_tc, hexl, hr, enc_openai_tc, tool_call_block,
          Except.bind, bind, List.mapM, List.mapM.loop, pure, Except.pure]
      · simp [parse_openai_message, Json.get?, al_get, assoc_get, List.find?,
          hp0, hpl, get_str_or, hr, tool_call_block, Except.bind, bind,
          List.mapM, List.mapM.loop, pure, Except.pure]
    · refine ⟨.obj [("role", .str role), ("content", .str t),
        ("tool_calls", Json.arr ((tc0 :: rest).map enc_openai_tc))], ?_, ?_⟩
      · simp [encode_openai_message, filter_text_map_tc, filter_tc_map_tc,
          filter_tr_map_tc, filter_text_map_tc_n, hexl, hr, ht, text_block,
          join_nl_singleton, enc_openai_tc, tool_call_block, Except.bind, bind,
          List.mapM, List.mapM.loop, pure, Except.pure]
      · simp [parse_openai_message, Json.get?, al_get, assoc_get, List.find?,
          hp0, hpl, get_str_or, hr, ht, text_block, tool_call_block,
          Except.bind, bind, List.mapM, List.mapM.loop, pure, Except.pure]
  | tool cid nm s =>
    refine ⟨.obj [("role", .str "tool"), ("tool_call_id", .str cid),
      ("name", opt_str_json nm), ("content", .str s)], ?_, ?_⟩
    · by_cases hs : s = "" <;>
        simp [encode_openai_message, hs, text_block, tool_result_block,
          py_str_of_json, opt_str_json, Except.bind, bind, List.mapM,
          List.mapM.loop, pure, Except.pure]
    · by_cases hs : s = "" <;> cases nm <;>
        simp [parse_openai_message, hs, text_block, tool_result_block,
          get_str_or, get_opt_str, opt_str_json, Json.get?, Json.getD, al_get,
          assoc_get, List.find?, Except.bind, bind, pure, Except.pure]

theorem messages_roundtrip (ms : List InternalMessage)
    (h : ∀ m ∈ ms, WFOpenAIMsg m) :
    ∃ js : List Json,
      (∀ acc, List.mapM.loop encode_openai_message ms acc =
        Except.ok (acc.reverse ++ js.map (fun j => [j]))) ∧
      (∀ acc, List.mapM.loop parse_openai_message js acc =
        Except.ok (acc.reverse ++ ms)) := by
  induction ms with
  | nil =>
    refine ⟨[], ?_, ?_⟩ <;> intro acc <;> simp [List.mapM.loop, pure, Except.pure]
  | cons m rest ih =>
    obtain ⟨j, hj_enc, hj_par⟩ :=
      encode_parse_openai_roundtrip m (h m (List.mem_cons_self m rest))
    obtain ⟨js, henc, hpar⟩ := ih (fun x hx => h x (List.mem_cons_of_mem m hx))
    refine ⟨j :: js, ?_, ?_⟩
    · intro acc
      simp only [List.mapM.loop, hj_enc, Except.bind, bind]
      rw [henc ([j] :: acc)]
      simp
    · intro acc
      simp only [List.mapM.loop, hj_par, Except.bind, bind]
      rw [hpar (m :: acc)]
      simp

theorem loop_parse_tool_defs (ts : List InternalTool)
    (acc : List (Option InternalTool)) :
    List.mapM.loop parse_openai_tool_def (ts.map dump_openai_tool_def) acc =
      Except.ok (acc.reverse ++ ts.map (fun t => some t)) := by
  induction ts generalizing acc with
  | nil => simp [List.mapM.loop, pure, Except.pure]
  | cons t rest ih =>
    simp only [List.map_cons, List.mapM.loop, parse_dump_tool, Except.bind, bind]
    rw [ih (some t :: acc)]
    simp

theorem find?_extra_none (extra : List (String × Json))
    (hkeys : ∀ p ∈ extra, p.1 ∉ openai_chat_reserved_keys) (k : String)
    (hk : k ∈ openai_chat_reserved_keys) :
    List.find? (fun p => p.1 = k) extra = none := by
  apply List.find?_eq_none.mpr
  intro p hp
  simp only [decide_eq_true_eq]
  intro he
  exact hkeys p hp (he ▸ hk)

/-- C3 (amended): the round trip holds within a dialect on the decoders'
image — for openai_chat, any Internal Chat Request whose messages are in
canonical decoded form (with tool-call arguments that re-parse to
themselves) and whose extra keys are distinct and disjoint from the
reserved body keys satisfies `from_openai_chat (to_openai_chat req) = req`
exactly (messages, roles, content blocks, model, stream, tools,
tool_choice and extra all preserved).  Across dialect pairs it fails:
gemini_chat carries no model field, so openai_chat → gemini_chat → internal
replaces the model by the hard-coded default. -/
theorem claim_C3_same_dialect_round_trip (req : InternalChatRequest)
    (hmsgs : ∀ m ∈ req.messages, WFOpenAIMsg m)
    (hnd : (req.extra.map Prod.fst).Nodup)
    (hkeys : ∀ p ∈ req.extra, p.1 ∉ openai_chat_reserved_keys) :
    (to_openai_chat req).bind from_openai_chat = .ok req := by
  obtain ⟨ms, model, stream, tools, tool_choice, extra⟩ := req
  obtain ⟨js, henc, hpar⟩ := messages_roundtrip ms hmsgs
  have hfold : ∀ l : List (String × Json),
      (∀ q ∈ l, q.1 ∈ openai_chat_reserved_keys) →
      List.foldl (fun acc p => assoc_set acc p.1 p.2) l extra = l ++ extra :=
    fun l hl => foldl_al_set_append extra l hnd
      (fun p hp q hq he => hkeys p hp (he ▸ hl q hq))
  have hfilter : extra.filter (fun p => !decide (p.1 = "messages") &&
      (!decide (p.1 = "model") && (!decide (p.1 = "stream") &&
        (!decide (p.1 = "tools") && !decide (p.1 = "tool_choice"))))) = extra := by
    rw [List.filter_eq_self]
    intro p hp
    have hni := hkeys p hp
    simp [openai_chat_reserved_keys] at hni
    simp [hni.1, hni.2.1, hni.2.2.1, hni.2.2.2.1, hni.2.2.2.2]
  have hfx : ∀ k ∈ openai_chat_reserved_keys,
      List.find? (fun p => p.1 = k) extra = none :=
    fun k hk => find?_extra_none extra hkeys k hk
  by_cases htl : tools = []
  · subst htl
    cases tool_choice <;>
      simp [to_openai_chat, from_openai_chat, henc, hpar, hfold, hfilter, hfx,
        flatten_singletons, loop_parse_tool_defs, filterMap_id_map_some,
        al_get, assoc_get, al_set, Json.get?, get_str_or, get_bool_or,
        List.find?, Except.bind, bind, pure, Except.pure, List.mapM,
        List.mapM.loop, openai_chat_reserved_keys]
  · obtain ⟨t0, trest, rfl⟩ := List.exists_cons_of_ne_nil htl
    cases tool_choice <;>
      simp [to_openai_chat, from_openai_chat, henc, hpar, hfold, hfilter, hfx,
        flatten_singletons, loop_parse_tool_defs, filterMap_id_map_some,
        parse_dump_tool, al_get, assoc_get, al_set, Json.get?, get_str_or,
        get_bool_or, List.find?, Except.bind, bind, pure, Except.pure,
        List.mapM, List.mapM.loop, openai_chat_reserved_keys]

/-- A concrete well-formed request exercising the C3 round trip. -/
def c3_wf_req : InternalChatRequest :=
  ⟨[⟨"user", [text_block "hi"]⟩], "m", false,
   [⟨"t", some "d", .obj []⟩], .null, [("temperature", .num 1)]⟩

theorem claim_C3_same_dialect_round_trip_witness :
    (∀ m ∈ c3_wf_req.messages, WFOpenAIMsg m) ∧
    (c3_wf_req.extra.map Prod.fst).Nodup ∧
    (∀ p ∈ c3_wf_req.extra, p.1 ∉ openai_chat_reserved_keys) ∧
    (to_openai_chat c3_wf_req).bind from_openai_chat = .ok c3_wf_req := by
  have h1 : ∀ m ∈ c3_wf_req.messages, WFOpenAIMsg m := by
    intro m hm
    simp [c3_wf_req] at hm
    subst hm
    exact WFOpenAIMsg.text "user" "hi" (by decide) (by decide)
  have h3 : ∀ p ∈ c3_wf_req.extra, p.1 ∉ openai_chat_reserved_keys := by
    intro p hp
    simp [c3_wf_req] at hp
    subst hp
    decide
  have h2 : (c3_wf_req.extra.map Prod.fst).Nodup := by
    simp [c3_wf_req]
  exact ⟨h1, h2, h3, claim_C3_same_dialect_round_trip c3_wf_req h1 h2 h3⟩
